import Mathlib

/-!
Verification of the stone-age-io agent against its specification.

The Go sources are shallowly embedded: strings are lists of characters,
`float64` metric values are rationals, `uint64` counters are naturals with
explicit wrap-around at `2 ^ 64`, and every external effect (filesystem
stat, glob expansion, OS service manager, HTTP scrape, clock) is an
explicit oracle parameter.  Each definition mirrors one Go function of the
repository and is named after it.
-/

namespace Agent

/-- Strings are modelled as lists of characters (byte-level behaviour of the
Go code on ASCII data). -/
abbrev Str := List Char

/-- Conversion from Lean string literals to the model representation. -/
def str (s : String) : Str := s.data

/-- The carriage-return character. -/
def crChar : Char := Char.ofNat 13

/-- The newline character. -/
def nlChar : Char := Char.ofNat 10

/-- Whitespace recognised by the Go standard library on ASCII input
(space, tab, newline, vertical tab, form feed, carriage return). -/
def goIsSpace (c : Char) : Bool :=
  c = ' ' || c = Char.ofNat 9 || c = nlChar || c = Char.ofNat 11 ||
  c = Char.ofNat 12 || c = crChar

/-- Helper of `fields`: accumulates the current word (reversed). -/
def fieldsAux : Str → Str → List Str
  | [], cur => if cur = [] then [] else [cur.reverse]
  | c :: rest, cur =>
    if goIsSpace c then
      if cur = [] then fieldsAux rest [] else cur.reverse :: fieldsAux rest []
    else fieldsAux rest (c :: cur)

/-- `strings.Fields`: split around runs of whitespace. -/
def fields (s : Str) : List Str := fieldsAux s []

/-- `strings.Join` with a separator. -/
def joinWith (sep : Str) : List Str → Str
  | [] => []
  | [x] => x
  | x :: xs => x ++ sep ++ joinWith sep xs

/-- `startsWith s p` is `strings.HasPrefix(s, p)`. -/
def startsWith : Str → Str → Bool
  | _, [] => true
  | [], _ :: _ => false
  | c :: s, d :: p => c = d && startsWith s p

/-- `containsSub hay needle` is `strings.Contains(hay, needle)`. -/
def containsSub : Str → Str → Bool
  | hay, needle =>
    startsWith hay needle ||
      match hay with
      | [] => false
      | _ :: t => containsSub t needle

/-- ASCII lower-casing of one character (`strings.ToLower` on ASCII data). -/
def lowerChar (c : Char) : Char :=
  if 'A' ≤ c ∧ c ≤ 'Z' then Char.ofNat (c.toNat + 32) else c

/-- Split a string at every occurrence of a separator character
(`strings.Split` with a one-character separator). -/
def splitOnChar (sep : Char) : Str → List Str
  | [] => [[]]
  | c :: rest =>
    let r := splitOnChar sep rest
    if c = sep then [] :: r
    else
      match r with
      | s :: ss => (c :: s) :: ss
      | [] => [[c]]

/-- Remove trailing slashes. -/
def dropTrailingSlashes (s : Str) : Str := (s.reverse.dropWhile (· = '/')).reverse

/-- The part of a string after its last slash (the whole string when it has
no slash). -/
def afterLastSlash (s : Str) : Str := (s.reverse.takeWhile (· ≠ '/')).reverse

/-- `filepath.Base` with Unix separators. -/
def basename (path : Str) : Str :=
  if path = [] then ['.']
  else
    let p := dropTrailingSlashes path
    let b := afterLastSlash p
    if b = [] then ['/'] else b

/-- `filepath.Ext` with Unix separators: the suffix starting at the last dot
of the final path element, empty when that element has no dot. -/
def ext (path : Str) : Str :=
  let fin := (path.reverse.takeWhile (fun c => c ≠ '/')).reverse
  if fin.contains '.' then
    '.' :: (fin.reverse.takeWhile (fun c => c ≠ '.')).reverse
  else []

/-- Segment processing of `filepath.Clean` (Unix): `acc` is the reversed
stack of output segments. -/
def cleanPushAll (rooted : Bool) : List Str → List Str → List Str
  | [], acc => acc
  | seg :: rest, acc =>
    if seg = [] ∨ seg = ['.'] then cleanPushAll rooted rest acc
    else if seg = ['.', '.'] then
      match acc with
      | [] => if rooted then cleanPushAll rooted rest [] else cleanPushAll rooted rest [seg]
      | top :: acc2 =>
        if top = ['.', '.'] then cleanPushAll rooted rest (seg :: top :: acc2)
        else cleanPushAll rooted rest acc2
    else cleanPushAll rooted rest (seg :: acc)

/-- `filepath.Clean` with Unix separators. -/
def clean (path : Str) : Str :=
  if path = [] then ['.']
  else
    let rooted := path.head? = some '/'
    let segs := splitOnChar '/' path
    let stack := (cleanPushAll rooted segs []).reverse
    let body := joinWith ['/'] stack
    if rooted then '/' :: body
    else if body = [] then ['.']
    else body

/-- `filepath.IsAbs` with Unix separators. -/
def isAbs (path : Str) : Bool := path.head? = some '/'

/-- `filepath.Join` of two elements with Unix separators: empty elements are
skipped and the concatenation is cleaned. -/
def joinPath (a b : Str) : Str :=
  if a = [] ∧ b = [] then []
  else if a = [] then clean b
  else if b = [] then clean a
  else clean (a ++ '/' :: b)

example : clean (str "/var/log/x/../app.log") = str "/var/log/app.log" := by decide
example : clean (str "a/../..") = str ".." := by decide
example : basename (str "/tmp/evil.sh") = str "evil.sh" := by decide
example : ext (str "evil.sh") = str ".sh" := by decide
example : joinPath (str "/opt/scripts") (str "evil.sh") = str "/opt/scripts/evil.sh" := by
  decide

/-! ## Command whitelist gate (`internal/tasks/exec_unix.go`) -/

/-- Result of `os.Stat`: `none` models a stat error (file missing),
otherwise the directory flag of the file info. -/
structure FileInfo where
  isDir : Bool

/-- The filesystem oracle behind `os.Stat`. -/
abbrev FileSystem := Str → Option FileInfo

/-- `normalizeWhitespace`: collapse whitespace runs to single spaces and
trim. -/
def normalizeWhitespace (s : Str) : Str := joinWith [' '] (fields s)

/-- `isScript`: the command looks like a shell script (`.sh` extension of
its basename). -/
def isScript (command : Str) : Bool := ext (basename command) = str ".sh"

/-- `isScriptAllowed`: the script basename resolves to an existing regular
file inside the scripts directory. -/
def isScriptAllowed (fs : FileSystem) (command scriptsDir : Str) : Bool :=
  let cleanScriptsDir := clean scriptsDir
  let commandFilename := basename command
  if ext commandFilename ≠ str ".sh" then false
  else
    let scriptPath := joinPath cleanScriptsDir commandFilename
    let cleanScriptPath := clean scriptPath
    if ¬ (startsWith cleanScriptPath (cleanScriptsDir ++ ['/']) = true ∨
          cleanScriptPath = cleanScriptsDir) then false
    else
      match fs cleanScriptPath with
      | none => false
      | some info => !info.isDir

/-- `isCommandAllowed`: exact whitespace-normalized whitelist match, or a
script present in the scripts directory. -/
def isCommandAllowed (fs : FileSystem) (command : Str) (allowedCommands : List Str)
    (scriptsDir : Str) : Bool :=
  let normalized := normalizeWhitespace command
  if allowedCommands.any (fun allowed => normalized = normalizeWhitespace allowed) then true
  else if scriptsDir ≠ [] ∧ isScript command = true then isScriptAllowed fs command scriptsDir
  else false

/-- `resolveScriptPath`: a bare basename is joined onto the scripts
directory; anything else is returned unchanged (the Go function never
returns an error). -/
def resolveScriptPath (command scriptsDir : Str) : Str :=
  if basename command = command then joinPath scriptsDir command else command

/-- The spawning decision of `ExecuteCommand`: `none` when the gate rejects
(nothing is spawned), otherwise the string handed to the platform shell. -/
def executeCommandPath (fs : FileSystem) (command : Str) (allowedCommands : List Str)
    (scriptsDir : Str) : Option Str :=
  if ¬ isCommandAllowed fs command allowedCommands scriptsDir = true then none
  else
    some (if scriptsDir ≠ [] ∧ isScript command = true then
            resolveScriptPath command scriptsDir
          else command)

/-- Whether a path lies inside a directory after canonicalization
(the prefix condition of the specification). -/
def insideDir (path dir : Str) : Bool :=
  startsWith (clean path) (clean dir ++ ['/']) || clean path = clean dir

/-- The filesystem for the C1 failing input: the scripts directory holds a
regular file `evil.sh`, and the attacker also controls `/tmp/evil.sh`. -/
def fsC1 : FileSystem := fun p =>
  if p = str "/opt/scripts/evil.sh" then some ⟨false⟩
  else if p = str "/tmp/evil.sh" then some ⟨false⟩
  else if p = str "/opt/scripts" then some ⟨true⟩
  else none

/-- C1: command whitelist gate and script-path containment.  The command
`/tmp/evil.sh` is not a bare basename, yet the gate admits it because the
file `evil.sh` exists in `/opt/scripts`; `resolveScriptPath` then returns
`/tmp/evil.sh` unchanged, so the string handed to the shell canonicalizes
outside the scripts directory, contradicting the claim that such a command
is rejected and nothing is spawned. -/
theorem C1_script_gate_escape :
    isCommandAllowed fsC1 (str "/tmp/evil.sh") [] (str "/opt/scripts") = true ∧
    executeCommandPath fsC1 (str "/tmp/evil.sh") [] (str "/opt/scripts")
      = some (str "/tmp/evil.sh") ∧
    insideDir (str "/tmp/evil.sh") (str "/opt/scripts") = false := by
  refine ⟨by decide, by decide, by decide⟩

/-! ## Log path gate (`internal/tasks/logs.go`) -/

/-- The oracle behind `filepath.Glob`: expansion of a pattern against the
host filesystem. -/
abbrev GlobFn := Str → List Str

/-- The deny-list of `isPathAllowed`. -/
def suspiciousPatterns : List Str :=
  [str "..", str "system32", str "\\windows\\", str "\\program files\\",
   str "sam", str ".exe", str ".dll", str ".sys"]

/-- `isPathAllowed`: clean the request, deny suspicious substrings
(case-insensitively), require an absolute path, then require equality with
some expansion of an allowed pattern that stays under the pattern's literal
base. -/
def isPathAllowed (glob : GlobFn) (requestedPath : Str) (allowedPatterns : List Str) : Bool :=
  let cleanPath := clean requestedPath
  let lowerPath := cleanPath.map lowerChar
  if suspiciousPatterns.any (fun susp => containsSub lowerPath susp) then false
  else if ¬ isAbs cleanPath = true then false
  else
    allowedPatterns.any fun pattern =>
      let cleanPattern := clean pattern
      (glob cleanPattern).any fun mtch =>
        let cleanMatch := clean mtch
        cleanPath = cleanMatch &&
          (let patternBase := clean ((splitOnChar '*' cleanPattern).headI)
           startsWith cleanPath patternBase)

/-- The glob oracle for the C2 counterexample: only `/var/log/app.log`
exists, and the allowed pattern is that literal path. -/
def globC2 : GlobFn := fun p =>
  if p = str "/var/log/app.log" then [str "/var/log/app.log"] else []

/-- C2 counterexample: the request `/var/log/x/../app.log` contains the
parent-directory segment `..`, yet the gate accepts it, because the deny
checks run on the lexically cleaned path `/var/log/app.log`. -/
theorem C2_counterexample :
    containsSub (str "/var/log/x/../app.log") (str "..") = true ∧
    isPathAllowed globC2 (str "/var/log/x/../app.log") [str "/var/log/app.log"] = true := by
  refine ⟨by decide, by decide⟩

/-- C2 (amended): the deny-list is applied to the lexically cleaned,
lower-cased request: whenever the cleaned request contains `..` or another
deny-list substring, the gate returns false, for every glob oracle and
every allowed-pattern list. -/
theorem C2_cleaned_denylist_rejected (glob : GlobFn) (requestedPath : Str)
    (allowedPatterns : List Str)
    (h : ∃ susp ∈ suspiciousPatterns,
      containsSub ((clean requestedPath).map lowerChar) susp = true) :
    isPathAllowed glob requestedPath allowedPatterns = false := by
  obtain ⟨susp, hmem, hsub⟩ := h
  have hany : (suspiciousPatterns.any
      (fun susp => containsSub ((clean requestedPath).map lowerChar) susp)) = true :=
    List.any_eq_true.mpr ⟨susp, hmem, hsub⟩
  unfold isPathAllowed
  simp only [hany, if_pos]

/-- Witness for `C2_cleaned_denylist_rejected` at the concrete request
`/etc/x.exe`, denied through the `.exe` deny entry. -/
theorem C2_cleaned_denylist_rejected_witness :
    isPathAllowed globC2 (str "/etc/x.exe") [str "/var/log/app.log"] = false :=
  C2_cleaned_denylist_rejected globC2 (str "/etc/x.exe") [str "/var/log/app.log"]
    ⟨str ".exe", by decide, by decide⟩

/-! ## OS service control (`service_windows.go`, Linux `ControlService`,
`service_freebsd.go`)

External contacts with the OS are recorded as an effect trace; their
outcomes are oracle parameters.  The real-time stop-polling loops are
abstracted into a single oracle outcome, which is sound here because every
claim about `ControlService` concerns only what happens before any contact
with the service manager. -/

/-- An externally visible contact of `ControlService` with the OS. -/
inductive SvcEffect
  | connectSCM
  | openService (name : Str)
  | spawn (prog : Str) (args : List Str)
deriving DecidableEq

/-- `isServiceAllowed`: exact match against the whitelist (identical in all
three implementations). -/
def isServiceAllowed (name : Str) (allowedServices : List Str) : Bool :=
  allowedServices.any (fun allowed => name = allowed)

/-- Oracle outcomes of the Windows Service Control Manager calls. -/
structure WinSvcWorld where
  connect : Except Str Unit
  openSvc : Str → Except Str Unit
  startSvc : Str → Except Str Unit
  stopWait : Except Str Unit

/-- Windows `ControlService`: whitelist check, connect to the SCM, open the
service, then dispatch on the action; an unknown action is rejected only in
the final `default` branch. -/
def controlServiceWindows (w : WinSvcWorld) (name action : Str) (allowed : List Str) :
    Except Str Str × List SvcEffect :=
  if ¬ isServiceAllowed name allowed = true then
    (.error (str "service not in allowed list"), [])
  else
    match w.connect with
    | .error e => (.error e, [.connectSCM])
    | .ok _ =>
      match w.openSvc name with
      | .error e => (.error e, [.connectSCM, .openService name])
      | .ok _ =>
        let effs := [SvcEffect.connectSCM, .openService name]
        if action = str "start" then
          match w.startSvc name with
          | .error e => (.error e, effs)
          | .ok _ => (.ok (str "Service started successfully"), effs)
        else if action = str "stop" then
          match w.stopWait with
          | .error e => (.error e, effs)
          | .ok _ => (.ok (str "Service stopped successfully"), effs)
        else if action = str "restart" then
          match w.stopWait with
          | .error e => (.error e, effs)
          | .ok _ =>
            match w.startSvc name with
            | .error e => (.error e, effs)
            | .ok _ => (.ok (str "Service restarted successfully"), effs)
        else (.error (str "invalid action"), effs)

/-- Oracle outcomes of the spawned commands on Linux and FreeBSD. -/
structure UnixSvcWorld where
  run : Str → List Str → Except Str Unit
  statusAfter : Except Str Str

/-- Linux `ControlService`: whitelist check, action dispatch (invalid
actions are rejected before anything is spawned), `systemctl` invocation,
then a best-effort status query whose failure does not fail the call. -/
def controlServiceLinux (w : UnixSvcWorld) (name action : Str) (allowed : List Str) :
    Except Str Str × List SvcEffect :=
  if ¬ isServiceAllowed name allowed = true then
    (.error (str "service not in allowed list"), [])
  else if ¬ (action = str "start" ∨ action = str "stop" ∨ action = str "restart") then
    (.error (str "invalid action"), [])
  else
    let effs := [SvcEffect.spawn (str "systemctl") [action, name]]
    match w.run (str "systemctl") [action, name] with
    | .error e => (.error e, effs)
    | .ok _ =>
      let effs2 := effs ++ [SvcEffect.spawn (str "systemctl")
        [str "show", name, str "--property=ActiveState,SubState,LoadState"]]
      match w.statusAfter with
      | .error _ => (.ok (str "Service action succeeded"), effs2)
      | .ok st => (.ok (str "Service action succeeded (status: " ++ st ++ [')']), effs2)

/-- FreeBSD `ControlService`: whitelist check, action validation before
spawning, then one `service` invocation. -/
def controlServiceFreeBSD (w : UnixSvcWorld) (name action : Str) (allowed : List Str) :
    Except Str Str × List SvcEffect :=
  if ¬ isServiceAllowed name allowed = true then
    (.error (str "service not in allowed list"), [])
  else if ¬ (action = str "start" ∨ action = str "stop" ∨ action = str "restart") then
    (.error (str "invalid action"), [])
  else
    let effs := [SvcEffect.spawn (str "service") [name, action]]
    match w.run (str "service") [name, action] with
    | .error e => (.error e, effs)
    | .ok _ => (.ok (str "Service action succeeded"), effs)

/-- A service-manager world in which every external call succeeds. -/
def winWorldOK : WinSvcWorld :=
  { connect := .ok (), openSvc := fun _ => .ok (), startSvc := fun _ => .ok (),
    stopWait := .ok () }

/-- A Unix world in which every spawned command succeeds. -/
def unixWorldOK : UnixSvcWorld :=
  { run := fun _ _ => .ok (), statusAfter := .ok (str "Running") }

/-- C4: on Windows, a whitelisted service with the invalid action
`destroy` is rejected only after the implementation has connected to the
Service Control Manager and opened the service, so the claim that the error
is returned without contacting the OS service manager fails there; the
Linux and FreeBSD implementations do satisfy it at the same input. -/
theorem C4_windows_contacts_scm_on_invalid_action :
    (controlServiceWindows winWorldOK (str "MyAppService") (str "destroy")
        [str "MyAppService"]).2
      = [SvcEffect.connectSCM, SvcEffect.openService (str "MyAppService")] ∧
    (match (controlServiceWindows winWorldOK (str "MyAppService") (str "destroy")
        [str "MyAppService"]).1 with | .error _ => true | .ok _ => false) = true ∧
    (controlServiceLinux unixWorldOK (str "MyAppService") (str "destroy")
        [str "MyAppService"]).2 = [] ∧
    (controlServiceFreeBSD unixWorldOK (str "MyAppService") (str "destroy")
        [str "MyAppService"]).2 = [] := by
  refine ⟨by decide, by decide, by decide, by decide⟩

/-! ## Metrics data model (`internal/tasks/metrics`, `unnamed/part_004`)

`float64` values are embedded as rationals and `uint64` counters as
naturals with explicit wrap-around at `2 ^ 64`. -/

/-- `math.Round`: round half away from zero (`Rat.floor` is the computable
floor of Batteries, provably equal to `Int.floor`). -/
def goMathRound (x : ℚ) : ℚ := if 0 ≤ x then ((x + 1/2).floor : ℤ) else -(((-x + 1/2).floor : ℤ))

/-- `utils.Round`: round to two decimal places. -/
def utilRound (x : ℚ) : ℚ := goMathRound (x * 100) / 100

theorem ratFloor_eq_intFloor (q : ℚ) : q.floor = ⌊q⌋ := rfl

theorem floor_half : ⌊(1 / 2 : ℚ)⌋ = 0 := by
  rw [Int.floor_eq_zero_iff]
  constructor <;> norm_num

/-- Rounding fixes integers. -/
theorem goMathRound_intCast (z : ℤ) : goMathRound (z : ℚ) = z := by
  unfold goMathRound
  rcases le_or_lt 0 z with hz | hz
  · rw [if_pos (by exact_mod_cast hz)]
    rw [ratFloor_eq_intFloor]
    rw [show ((z : ℚ) + 1 / 2) = (z : ℚ) + (1 / 2 : ℚ) from rfl, Int.floor_int_add,
      floor_half, add_zero]
  · rw [if_neg (by exact_mod_cast not_le.mpr hz)]
    rw [ratFloor_eq_intFloor]
    rw [show (-(z : ℚ) + 1 / 2) = ((-z : ℤ) : ℚ) + (1 / 2 : ℚ) by push_cast; ring,
      Int.floor_int_add, floor_half, add_zero]
    push_cast
    ring

/-- Two-decimal rounding fixes integers. -/
theorem utilRound_intCast (z : ℤ) : utilRound (z : ℚ) = z := by
  unfold utilRound
  rw [show ((z : ℚ) * 100) = ((z * 100 : ℤ) : ℚ) by push_cast; ring, goMathRound_intCast]
  push_cast
  ring

theorem utilRound_zero : utilRound 0 = 0 := by
  simpa using utilRound_intCast 0

/-- `DiskMetrics`. -/
structure DiskMetricsQ where
  drive : Str
  freePercent : ℚ := 0
  freeGB : ℚ := 0
  totalGB : ℚ := 0
  readBytesPerSec : ℚ := 0
  writeBytesPerSec : ℚ := 0
deriving DecidableEq

/-- `SystemMetrics` (the RFC3339 timestamp string is not modelled). -/
structure SystemMetricsQ where
  cpuUsagePercent : ℚ := 0
  memoryFreeGB : ℚ := 0
  disks : List DiskMetricsQ := []
deriving DecidableEq

/-- The per-disk checks of `validateMetrics`, in source order; rate checks
run only when `isFirstScrape` is false.  Error messages keep the static
part of the Go format strings. -/
def validateDisks (isFirstScrape : Bool) : List DiskMetricsQ → Option Str
  | [] => none
  | d :: rest =>
    if d.freePercent < 0 ∨ 100 < d.freePercent then some (str "invalid disk free percent")
    else if d.freeGB < 0 then some (str "invalid disk free space")
    else if d.totalGB < 0 then some (str "invalid disk total space")
    else if isFirstScrape = false ∧ d.readBytesPerSec < 0 then some (str "invalid disk read rate")
    else if isFirstScrape = false ∧ d.writeBytesPerSec < 0 then some (str "invalid disk write rate")
    else validateDisks isFirstScrape rest

/-- `validateMetrics`: a first scrape is detected as `CPUUsagePercent == 0`;
CPU-range and rate checks are skipped in that case, gauge checks always
run. -/
def validateMetrics (m : SystemMetricsQ) : Option Str :=
  let isFirstScrape : Bool := m.cpuUsagePercent = 0
  if isFirstScrape = false ∧ (m.cpuUsagePercent < 0 ∨ 100 < m.cpuUsagePercent) then
    some (str "invalid CPU usage")
  else if m.memoryFreeGB < 0 then some (str "invalid memory free")
  else validateDisks isFirstScrape m.disks

/-- `Executor.ScrapeMetrics` after a collector outcome: validation errors
are propagated to the caller. -/
def scrapeMetrics (collectRes : Except Str SystemMetricsQ) : Except Str SystemMetricsQ :=
  match collectRes with
  | .error e => .error e
  | .ok m =>
    match validateMetrics m with
    | some e => .error e
    | none => .ok m

/-- Modelled from the spec: the scheduler metrics job (not present under
`src/`) publishes the scraped metrics only when `ScrapeMetrics` succeeds;
on an error it records a metrics failure and publishes nothing that
cycle. -/
def metricsJobPublishes (scrapeRes : Except Str SystemMetricsQ) : List SystemMetricsQ :=
  match scrapeRes with
  | .error _ => []
  | .ok m => [m]

/-! ## Builtin collector (`unnamed/part_002`, `BuiltinCollector`) -/

/-- `cpu.TimesStat`: the per-mode cumulative CPU times the collector
reads. -/
structure CPUTimes where
  user : ℚ := 0
  system : ℚ := 0
  idle : ℚ := 0
  nice : ℚ := 0
  iowait : ℚ := 0
  irq : ℚ := 0
  softirq : ℚ := 0
  steal : ℚ := 0
deriving DecidableEq

/-- Total cumulative time across all modes, as summed by `collectCPU`. -/
def cpuTotalOf (t : CPUTimes) : ℚ :=
  t.user + t.system + t.idle + t.nice + t.iowait + t.irq + t.softirq + t.steal

/-- Idle cumulative time (`idle + iowait`), as summed by `collectCPU`. -/
def cpuIdleOf (t : CPUTimes) : ℚ := t.idle + t.iowait

/-- `disk.IOCountersStat`: `uint64` byte counters. -/
structure DiskIOStat where
  readBytes : ℕ := 0
  writeBytes : ℕ := 0
deriving DecidableEq

/-- `uint64` subtraction with wrap-around, as performed by
`io.ReadBytes - prev.ReadBytes`. -/
def u64sub (a b : ℕ) : ℕ := (a + 2 ^ 64 - b % 2 ^ 64) % 2 ^ 64

/-- The rate cache of `BuiltinCollector`; `none` models the zero
`time.Time`. -/
structure BuiltinState where
  lastTimestamp : Option ℚ
  lastCPUTimes : CPUTimes
  hasCPUTimes : Bool
  lastDiskIo : List (Str × DiskIOStat)
deriving DecidableEq

/-- The state of a freshly created (or reset) builtin collector. -/
def initBuiltinState : BuiltinState := ⟨none, {}, false, []⟩

/-- `maxMetricsCacheAge` = 10 minutes, in seconds. -/
def maxMetricsCacheAge : ℚ := 600

/-- `BuiltinCollector.resetCacheIfStale`. -/
def builtinResetCacheIfStale (st : BuiltinState) (now : ℚ) : BuiltinState :=
  match st.lastTimestamp with
  | none => st
  | some last => if maxMetricsCacheAge < now - last then initBuiltinState else st

/-- `BuiltinCollector.collectCPU` given the oracle outcome of
`cpu.TimesWithContext`. -/
def collectCPU (st : BuiltinState) (now : ℚ) (timesRes : Except Str (List CPUTimes)) :
    Except Str ℚ × BuiltinState :=
  match timesRes with
  | .error e => (.error e, st)
  | .ok [] => (.error (str "no CPU times returned"), st)
  | .ok (current :: _) =>
    let currentTotal := cpuTotalOf current
    let currentIdle := cpuIdleOf current
    if st.hasCPUTimes = false then
      (.ok 0,
       { st with lastCPUTimes := current, hasCPUTimes := true, lastTimestamp := some now })
    else
      let prevTotal := cpuTotalOf st.lastCPUTimes
      let prevIdle := cpuIdleOf st.lastCPUTimes
      let totalDelta := currentTotal - prevTotal
      let idleDelta := currentIdle - prevIdle
      let st2 := { st with lastCPUTimes := current, lastTimestamp := some now }
      if totalDelta ≤ 0 then (.ok 0, st2)
      else (.ok (utilRound ((totalDelta - idleDelta) / totalDelta * 100)), st2)

/-- `BuiltinCollector.collectMemory` given the oracle outcome of
`mem.VirtualMemoryWithContext` (available bytes). -/
def collectMemory (availRes : Except Str ℕ) : Except Str ℚ :=
  match availRes with
  | .error e => .error e
  | .ok avail => .ok (utilRound ((avail : ℚ) / 1024 / 1024 / 1024))

/-- `disk.PartitionStat`. -/
structure PartitionStat where
  device : Str
  mountpoint : Str
  fstype : Str

/-- `disk.UsageStat`: total and free bytes. -/
structure UsageStat where
  total : ℕ
  free : ℕ

/-- `BuiltinCollector.shouldSkipPartition`. -/
def shouldSkipPartition (p : PartitionStat) : Bool :=
  p.fstype = str "devfs" || p.fstype = str "devtmpfs" || p.fstype = str "tmpfs" ||
  p.fstype = str "squashfs" || p.fstype = str "overlay" || p.fstype = str "proc" ||
  p.fstype = str "sysfs" || p.fstype = str "cgroup" || p.fstype = str "cgroup2"

/-- `BuiltinCollector.normalizeDriveName`. -/
def normalizeDriveName (os mountpoint : Str) : Str :=
  if os = str "windows" then
    match mountpoint with
    | a :: b :: _ => if b = ':' then [a, b] else mountpoint
    | _ => mountpoint
  else mountpoint

/-- `BuiltinCollector.getDeviceName`. -/
def getDeviceName (os : Str) (p : PartitionStat) : Str :=
  if os = str "windows" then
    match p.mountpoint with
    | a :: b :: _ => if b = ':' then [a, b] else p.mountpoint
    | _ => p.mountpoint
  else if startsWith p.device (str "/dev/") then p.device.drop 5 else p.device

/-- Lookup in a Go map modelled as an insertion-ordered association
list. -/
def lookupA {A : Type} (m : List (Str × A)) (k : Str) : Option A :=
  (m.find? (fun p => p.1 = k)).map (·.2)

/-- Store into a Go map modelled as an insertion-ordered association
list. -/
def storeA {A : Type} (m : List (Str × A)) (k : Str) (v : A) : List (Str × A) :=
  if (m.find? (fun p => p.1 = k)).isSome then
    m.map (fun p => if p.1 = k then (k, v) else p)
  else m ++ [(k, v)]

/-- The partition loop of `BuiltinCollector.collectDisks`, threading the
`lastDiskIo` cache. -/
def collectDisksLoop (os : Str) (timeDelta : ℚ) (isFirstScrape : Bool)
    (ioCounters : Option (List (Str × DiskIOStat))) (usage : Str → Except Str UsageStat) :
    List PartitionStat → List (Str × DiskIOStat) →
    List DiskMetricsQ × List (Str × DiskIOStat)
  | [], lastIo => ([], lastIo)
  | p :: rest, lastIo =>
    if shouldSkipPartition p then
      collectDisksLoop os timeDelta isFirstScrape ioCounters usage rest lastIo
    else
      match usage p.mountpoint with
      | .error _ => collectDisksLoop os timeDelta isFirstScrape ioCounters usage rest lastIo
      | .ok u =>
        if u.total < 1073741824 then
          collectDisksLoop os timeDelta isFirstScrape ioCounters usage rest lastIo
        else
          let dm0 : DiskMetricsQ :=
            { drive := normalizeDriveName os p.mountpoint,
              totalGB := utilRound ((u.total : ℚ) / 1024 / 1024 / 1024),
              freeGB := utilRound ((u.free : ℚ) / 1024 / 1024 / 1024),
              freePercent := utilRound ((u.free : ℚ) / (u.total : ℚ) * 100) }
          match ioCounters with
          | none =>
            let r := collectDisksLoop os timeDelta isFirstScrape ioCounters usage rest lastIo
            (dm0 :: r.1, r.2)
          | some io =>
            if isFirstScrape = false ∧ 0 < timeDelta then
              let deviceName := getDeviceName os p
              match lookupA io deviceName with
              | none =>
                let r :=
                  collectDisksLoop os timeDelta isFirstScrape ioCounters usage rest lastIo
                (dm0 :: r.1, r.2)
              | some ioStat =>
                let dm :=
                  match lookupA lastIo deviceName with
                  | some prev =>
                    { dm0 with
                      readBytesPerSec :=
                        utilRound ((u64sub ioStat.readBytes prev.readBytes : ℚ) / timeDelta),
                      writeBytesPerSec :=
                        utilRound ((u64sub ioStat.writeBytes prev.writeBytes : ℚ) / timeDelta) }
                  | none => dm0
                let r := collectDisksLoop os timeDelta isFirstScrape ioCounters usage rest
                  (storeA lastIo deviceName ioStat)
                (dm :: r.1, r.2)
            else
              let deviceName := getDeviceName os p
              match lookupA io deviceName with
              | none =>
                let r :=
                  collectDisksLoop os timeDelta isFirstScrape ioCounters usage rest lastIo
                (dm0 :: r.1, r.2)
              | some ioStat =>
                let r := collectDisksLoop os timeDelta isFirstScrape ioCounters usage rest
                  (storeA lastIo deviceName ioStat)
                (dm0 :: r.1, r.2)

/-- `BuiltinCollector.collectDisks`: a failed `disk.IOCountersWithContext`
only disables the rate path; the timestamp is stored at the end when still
unset.  The zero `time.Time` is modelled as rational `0` inside
`timeDelta`, which the `isFirstScrape` guard keeps unobservable. -/
def collectDisks (os : Str) (st : BuiltinState) (now : ℚ)
    (partsRes : Except Str (List PartitionStat))
    (ioRes : Except Str (List (Str × DiskIOStat)))
    (usage : Str → Except Str UsageStat) :
    Except Str (List DiskMetricsQ) × BuiltinState :=
  match partsRes with
  | .error e => (.error e, st)
  | .ok parts =>
    let ioCounters : Option (List (Str × DiskIOStat)) :=
      match ioRes with
      | .error _ => none
      | .ok m => some m
    let timeDelta := now - ((st.lastTimestamp).getD 0)
    let isFirstScrape : Bool := st.lastTimestamp = none
    let (dms, lastIo2) :=
      collectDisksLoop os timeDelta isFirstScrape ioCounters usage parts st.lastDiskIo
    let st2 :=
      { st with
        lastDiskIo := lastIo2,
        lastTimestamp :=
          match st.lastTimestamp with
          | none => some now
          | some t => some t }
    (.ok dms, st2)

/-- The external oracle outcomes consumed by one `BuiltinCollector.Collect`
call. -/
structure BuiltinOracles where
  cpuTimes : Except Str (List CPUTimes)
  memAvail : Except Str ℕ
  partsRes : Except Str (List PartitionStat)
  ioRes : Except Str (List (Str × DiskIOStat))
  usage : Str → Except Str UsageStat

/-- `BuiltinCollector.Collect`: staleness reset, then CPU, memory and disk
collection; a failure of any sub-collector is only logged and leaves the
corresponding field at its zero value.  The clock is read separately at the
reset check, the CPU store and the disk pass (`tReset`, `tCPU`, `tDisk`). -/
def builtinCollect (os : Str) (st : BuiltinState) (tReset tCPU tDisk : ℚ)
    (o : BuiltinOracles) : Except Str SystemMetricsQ × BuiltinState :=
  let st0 := builtinResetCacheIfStale st tReset
  let r1 := collectCPU st0 tCPU o.cpuTimes
  let cpu := match r1.1 with
    | .ok v => v
    | .error _ => 0
  let mem := match collectMemory o.memAvail with
    | .ok v => v
    | .error _ => 0
  let r2 := collectDisks os r1.2 tDisk o.partsRes o.ioRes o.usage
  let disks := match r2.1 with
    | .ok ds => ds
    | .error _ => []
  (.ok { cpuUsagePercent := cpu, memoryFreeGB := mem, disks := disks }, r2.2)

/-! ## Exporter collector (`internal/tasks/collector_exporter.go`)

The HTTP scrape and the `expfmt` decode are external; `Collect` is modelled
from the already-decoded metric families on the successful-scrape path.
Go maps are insertion-ordered association lists. -/

/-- `DiskCounters` (previous disk counter values, `float64`). -/
structure DiskCountersQ where
  readBytes : ℚ := 0
  writeBytes : ℚ := 0
deriving DecidableEq

/-- The rate cache of `ExporterCollector`; `none` models the zero
`time.Time`. -/
structure ExporterState where
  lastTimestamp : Option ℚ
  lastCPUTotal : ℚ
  lastCPUIdle : ℚ
  lastDiskMetrics : List (Str × DiskCountersQ)
deriving DecidableEq

/-- The state of a freshly created (or reset) exporter collector. -/
def initExporterState : ExporterState := ⟨none, 0, 0, []⟩

/-- `ExporterCollector.resetCacheIfStale`. -/
def exporterResetCacheIfStale (st : ExporterState) (now : ℚ) : ExporterState :=
  match st.lastTimestamp with
  | none => st
  | some last => if maxMetricsCacheAge < now - last then initExporterState else st

/-- One decoded Prometheus metric: its label pairs and its counter or gauge
value (absent models a nil pointer). -/
structure PromMetric where
  labels : List (Str × Str)
  counter : Option ℚ := none
  gauge : Option ℚ := none

/-- The decoded metric families, keyed by family name. -/
abbrev Families := List (Str × List PromMetric)

/-- Lookup of a metric family by name. -/
def lookupFam (fams : Families) (name : Str) : Option (List PromMetric) :=
  (fams.find? (fun p => p.1 = name)).map (·.2)

/-- `getLabelValue`. -/
def getLabelValue (labels : List (Str × Str)) (name : Str) : Str :=
  match labels.find? (fun l => l.1 = name) with
  | some l => l.2
  | none => []

/-- `MetricNames` (platform-specific Prometheus metric names). -/
structure MetricNames where
  cpuTime : Str
  cpuIdleLabel : Str
  memoryFree : Str
  diskFreeBytes : Str
  diskSizeBytes : Str
  diskReadBytes : Str
  diskWriteBytes : Str
  volumeLabel : Str

/-- `GetMetricNames`: the `linux`/`freebsd` and fallback cases of the Go
switch carry identical values and are merged into the else branch. -/
def getMetricNames (os : Str) : MetricNames :=
  if os = str "windows" then
    { cpuTime := str "windows_cpu_time_total", cpuIdleLabel := str "idle",
      memoryFree := str "windows_memory_available_bytes",
      diskFreeBytes := str "windows_logical_disk_free_bytes",
      diskSizeBytes := str "windows_logical_disk_size_bytes",
      diskReadBytes := str "windows_logical_disk_read_bytes_total",
      diskWriteBytes := str "windows_logical_disk_write_bytes_total",
      volumeLabel := str "volume" }
  else
    { cpuTime := str "node_cpu_seconds_total", cpuIdleLabel := str "idle",
      memoryFree := str "node_memory_MemAvailable_bytes",
      diskFreeBytes := str "node_filesystem_avail_bytes",
      diskSizeBytes := str "node_filesystem_size_bytes",
      diskReadBytes := str "node_disk_read_bytes_total",
      diskWriteBytes := str "node_disk_written_bytes_total",
      volumeLabel := str "mountpoint" }

/-- The CPU summation loop of `parsePrometheusMetrics`: total over all
modes and cores, idle over the idle mode. -/
def cpuSums (idleLabel : Str) : List PromMetric → ℚ × ℚ
  | [] => (0, 0)
  | m :: rest =>
    let p := cpuSums idleLabel rest
    match m.counter with
    | none => p
    | some v =>
      let mode := getLabelValue m.labels (str "mode")
      (p.1 + v, if mode = idleLabel then p.2 + v else p.2)

/-- Update-or-insert into the `diskData` map, creating the entry with its
drive name as in the Go code. -/
def upsertDisk (dd : List (Str × DiskMetricsQ)) (volume : Str)
    (f : DiskMetricsQ → DiskMetricsQ) : List (Str × DiskMetricsQ) :=
  match lookupA dd volume with
  | some _ => dd.map (fun p => if p.1 = volume then (p.1, f p.2) else p)
  | none => dd ++ [(volume, f { drive := volume })]

/-- The free-bytes loop of `parsePrometheusMetrics`. -/
def diskFreeLoop (volLabel : Str) : List PromMetric → List (Str × DiskMetricsQ) →
    List (Str × DiskMetricsQ)
  | [], dd => dd
  | m :: rest, dd =>
    match m.gauge with
    | none => diskFreeLoop volLabel rest dd
    | some g =>
      let volume := getLabelValue m.labels volLabel
      if volume ≠ [] then
        diskFreeLoop volLabel rest
          (upsertDisk dd volume (fun d => { d with freeGB := utilRound (g / 1024 / 1024 / 1024) }))
      else diskFreeLoop volLabel rest dd

/-- The size-bytes loop of `parsePrometheusMetrics`: stores the total and,
when the (already rounded) free value and the raw total are positive, the
free percentage. -/
def diskSizeLoop (volLabel : Str) : List PromMetric → List (Str × DiskMetricsQ) →
    List (Str × DiskMetricsQ)
  | [], dd => dd
  | m :: rest, dd =>
    match m.gauge with
    | none => diskSizeLoop volLabel rest dd
    | some g =>
      let volume := getLabelValue m.labels volLabel
      if volume ≠ [] then
        diskSizeLoop volLabel rest
          (upsertDisk dd volume (fun d =>
            let d2 := { d with totalGB := utilRound (g / 1024 / 1024 / 1024) }
            if 0 < d.freeGB ∧ 0 < g then
              { d2 with freePercent := utilRound (d.freeGB * 1024 * 1024 * 1024 / g * 100) }
            else d2))
      else diskSizeLoop volLabel rest dd

/-- The read-rate loop (second and later samples): a rate is produced only
when a previous counter for the volume exists and is positive; the current
counter is always stored. -/
def diskReadRateLoop (volLabel : Str) (timeDelta : ℚ) :
    List PromMetric → List (Str × DiskMetricsQ) → List (Str × DiskCountersQ) →
    List (Str × DiskMetricsQ) × List (Str × DiskCountersQ)
  | [], dd, ldm => (dd, ldm)
  | m :: rest, dd, ldm =>
    match m.counter with
    | none => diskReadRateLoop volLabel timeDelta rest dd ldm
    | some cur =>
      let volume := getLabelValue m.labels volLabel
      if volume ≠ [] then
        let dd2 :=
          match lookupA ldm volume with
          | some prev =>
            if 0 < prev.readBytes then
              upsertDisk dd volume (fun d =>
                { d with readBytesPerSec := utilRound ((cur - prev.readBytes) / timeDelta) })
            else dd
          | none => dd
        let counters := (lookupA ldm volume).getD {}
        diskReadRateLoop volLabel timeDelta rest dd2
          (storeA ldm volume { counters with readBytes := cur })
      else diskReadRateLoop volLabel timeDelta rest dd ldm

/-- The write-rate loop (second and later samples). -/
def diskWriteRateLoop (volLabel : Str) (timeDelta : ℚ) :
    List PromMetric → List (Str × DiskMetricsQ) → List (Str × DiskCountersQ) →
    List (Str × DiskMetricsQ) × List (Str × DiskCountersQ)
  | [], dd, ldm => (dd, ldm)
  | m :: rest, dd, ldm =>
    match m.counter with
    | none => diskWriteRateLoop volLabel timeDelta rest dd ldm
    | some cur =>
      let volume := getLabelValue m.labels volLabel
      if volume ≠ [] then
        let dd2 :=
          match lookupA ldm volume with
          | some prev =>
            if 0 < prev.writeBytes then
              upsertDisk dd volume (fun d =>
                { d with writeBytesPerSec := utilRound ((cur - prev.writeBytes) / timeDelta) })
            else dd
          | none => dd
        let counters := (lookupA ldm volume).getD {}
        diskWriteRateLoop volLabel timeDelta rest dd2
          (storeA ldm volume { counters with writeBytes := cur })
      else diskWriteRateLoop volLabel timeDelta rest dd ldm

/-- The first-sample baseline loop for read counters. -/
def diskReadBaselineLoop (volLabel : Str) :
    List PromMetric → List (Str × DiskCountersQ) → List (Str × DiskCountersQ)
  | [], ldm => ldm
  | m :: rest, ldm =>
    match m.counter with
    | none => diskReadBaselineLoop volLabel rest ldm
    | some cur =>
      let volume := getLabelValue m.labels volLabel
      if volume ≠ [] then
        let counters := (lookupA ldm volume).getD {}
        diskReadBaselineLoop volLabel rest (storeA ldm volume { counters with readBytes := cur })
      else diskReadBaselineLoop volLabel rest ldm

/-- The first-sample baseline loop for write counters. -/
def diskWriteBaselineLoop (volLabel : Str) :
    List PromMetric → List (Str × DiskCountersQ) → List (Str × DiskCountersQ)
  | [], ldm => ldm
  | m :: rest, ldm =>
    match m.counter with
    | none => diskWriteBaselineLoop volLabel rest ldm
    | some cur =>
      let volume := getLabelValue m.labels volLabel
      if volume ≠ [] then
        let counters := (lookupA ldm volume).getD {}
        diskWriteBaselineLoop volLabel rest (storeA ldm volume { counters with writeBytes := cur })
      else diskWriteBaselineLoop volLabel rest ldm

/-- Reading the first metric of a family as a gauge in GB
(`family.Metric[0].Gauge`), as the memory section does. -/
def firstGaugeGB : List PromMetric → Option ℚ
  | [] => none
  | m :: _ =>
    match m.gauge with
    | none => none
    | some g => some (utilRound (g / 1024 / 1024 / 1024))

/-- The memory section of `parsePrometheusMetrics`: on Linux prefer
`MemAvailable` with a `MemFree` fallback, elsewhere one platform metric. -/
def memorySection (os : Str) (names : MetricNames) (fams : Families) : ℚ :=
  if os = str "linux" then
    match lookupFam fams (str "node_memory_MemAvailable_bytes") with
    | some mets => (firstGaugeGB mets).getD 0
    | none =>
      match lookupFam fams (str "node_memory_MemFree_bytes") with
      | some mets => (firstGaugeGB mets).getD 0
      | none => 0
  else
    match lookupFam fams names.memoryFree with
    | some mets => (firstGaugeGB mets).getD 0
    | none => 0

/-- `ExporterCollector.parsePrometheusMetrics` over decoded families:
CPU rate section, memory section, disk gauge loops, disk I/O rate or
baseline loops, timestamp store, and the final filter that keeps drives
with data. -/
def parsePrometheusMetrics (os : Str) (st : ExporterState) (now : ℚ) (fams : Families) :
    SystemMetricsQ × ExporterState :=
  let names := getMetricNames os
  let cpuStep :=
    match lookupFam fams names.cpuTime with
    | some mets =>
      let sums := cpuSums names.cpuIdleLabel mets
      let cpuVal :=
        if st.lastTimestamp ≠ none ∧ 0 < sums.1 ∧ 0 < st.lastCPUTotal then
          let totalDelta := sums.1 - st.lastCPUTotal
          let idleDelta := sums.2 - st.lastCPUIdle
          if 0 < totalDelta then utilRound (100 - idleDelta / totalDelta * 100) else 0
        else 0
      (cpuVal, { st with lastCPUTotal := sums.1, lastCPUIdle := sums.2 })
    | none => ((0 : ℚ), st)
  let cpu := cpuStep.1
  let st1 := cpuStep.2
  let mem := memorySection os names fams
  let dd0 :=
    match lookupFam fams names.diskFreeBytes with
    | some mets => diskFreeLoop names.volumeLabel mets []
    | none => []
  let dd1 :=
    match lookupFam fams names.diskSizeBytes with
    | some mets => diskSizeLoop names.volumeLabel mets dd0
    | none => dd0
  let ioStep :=
    match st1.lastTimestamp with
    | some last =>
      let timeDelta := now - last
      if 0 < timeDelta then
        let rStep :=
          match lookupFam fams names.diskReadBytes with
          | some mets => diskReadRateLoop names.volumeLabel timeDelta mets dd1 st1.lastDiskMetrics
          | none => (dd1, st1.lastDiskMetrics)
        match lookupFam fams names.diskWriteBytes with
        | some mets => diskWriteRateLoop names.volumeLabel timeDelta mets rStep.1 rStep.2
        | none => rStep
      else (dd1, st1.lastDiskMetrics)
    | none =>
      let ldmA :=
        match lookupFam fams names.diskReadBytes with
        | some mets => diskReadBaselineLoop names.volumeLabel mets st1.lastDiskMetrics
        | none => st1.lastDiskMetrics
      let ldmB :=
        match lookupFam fams names.diskWriteBytes with
        | some mets => diskWriteBaselineLoop names.volumeLabel mets ldmA
        | none => ldmA
      (dd1, ldmB)
  let st2 := { st1 with lastTimestamp := some now, lastDiskMetrics := ioStep.2 }
  let disks := (ioStep.1.map (·.2)).filter
    (fun d => 0 < d.totalGB ∨ 0 < d.readBytesPerSec ∨ 0 < d.writeBytesPerSec)
  ({ cpuUsagePercent := cpu, memoryFreeGB := mem, disks := disks }, st2)

/-- `ExporterCollector.Collect` on the successful-scrape path: staleness
reset, then parsing of the scraped families (the clock is read at the reset
check and at the I/O section, `tReset` and `tNow`). -/
def exporterSample (os : Str) (st : ExporterState) (tReset tNow : ℚ) (fams : Families) :
    SystemMetricsQ × ExporterState :=
  parsePrometheusMetrics os (exporterResetCacheIfStale st tReset) tNow fams

/-! ## C10: the builtin collector never returns an error -/

/-- C10: `BuiltinCollector.Collect` always returns a nil error: for every
state, clock values and oracle outcomes it produces `ok` metrics, and a
failure of the CPU, memory or disk sub-collector only leaves the
corresponding field at its zero value. -/
theorem C10_builtin_collect_never_errors (os : Str) (st : BuiltinState)
    (tReset tCPU tDisk : ℚ) (o : BuiltinOracles) :
    ∃ m, (builtinCollect os st tReset tCPU tDisk o).1 = Except.ok m ∧
      (∀ e, (collectCPU (builtinResetCacheIfStale st tReset) tCPU o.cpuTimes).1 = .error e →
        m.cpuUsagePercent = 0) ∧
      (∀ e, collectMemory o.memAvail = .error e → m.memoryFreeGB = 0) ∧
      (∀ e, (collectDisks os (collectCPU (builtinResetCacheIfStale st tReset) tCPU o.cpuTimes).2
          tDisk o.partsRes o.ioRes o.usage).1 = .error e → m.disks = []) := by
  unfold builtinCollect
  refine ⟨_, rfl, fun e he => ?_, fun e he => ?_, fun e he => ?_⟩ <;> simp only [he]

/-- A builtin oracle set in which every external sampling call fails. -/
def builtinOraclesFail : BuiltinOracles :=
  { cpuTimes := .error (str "cpu failed"), memAvail := .error (str "mem failed"),
    partsRes := .error (str "parts failed"), ioRes := .error (str "io failed"),
    usage := fun _ => .error (str "usage failed") }

/-- Witness for `C10_builtin_collect_never_errors` at a concrete input in
which every sub-collector fails. -/
theorem C10_builtin_collect_never_errors_witness :
    ∃ m, (builtinCollect (str "linux") initBuiltinState 0 0 0 builtinOraclesFail).1
        = Except.ok m ∧
      (∀ e, (collectCPU (builtinResetCacheIfStale initBuiltinState 0) 0
          builtinOraclesFail.cpuTimes).1 = .error e → m.cpuUsagePercent = 0) ∧
      (∀ e, collectMemory builtinOraclesFail.memAvail = .error e → m.memoryFreeGB = 0) ∧
      (∀ e, (collectDisks (str "linux")
          (collectCPU (builtinResetCacheIfStale initBuiltinState 0) 0
            builtinOraclesFail.cpuTimes).2
          0 builtinOraclesFail.partsRes builtinOraclesFail.ioRes builtinOraclesFail.usage).1
            = .error e → m.disks = []) :=
  C10_builtin_collect_never_errors (str "linux") initBuiltinState 0 0 0 builtinOraclesFail

/-! ## C5: the CPU rate state machine of both collectors -/

/-- Builtin collector, first sample: report 0 and store the baseline. -/
theorem collectCPU_first_sample (st : BuiltinState) (now : ℚ) (cur : CPUTimes)
    (rest : List CPUTimes) (h : st.hasCPUTimes = false) :
    collectCPU st now (.ok (cur :: rest)) =
      (.ok 0, { st with lastCPUTimes := cur, hasCPUTimes := true,
                        lastTimestamp := some now }) := by
  simp [collectCPU, h]

/-- Builtin collector, later sample: 0 on a non-positive total delta, the
rounded claim formula otherwise. -/
theorem collectCPU_later_sample (st : BuiltinState) (now : ℚ) (cur : CPUTimes)
    (rest : List CPUTimes) (h : st.hasCPUTimes = true) :
    collectCPU st now (.ok (cur :: rest)) =
      (.ok (if cpuTotalOf cur - cpuTotalOf st.lastCPUTimes ≤ 0 then 0
            else utilRound (100 * ((cpuTotalOf cur - cpuTotalOf st.lastCPUTimes) -
                   (cpuIdleOf cur - cpuIdleOf st.lastCPUTimes)) /
                   (cpuTotalOf cur - cpuTotalOf st.lastCPUTimes))),
       { st with lastCPUTimes := cur, lastTimestamp := some now }) := by
  by_cases hd : cpuTotalOf cur - cpuTotalOf st.lastCPUTimes ≤ 0
  · simp [collectCPU, h, hd]
  · have e1 : (cpuTotalOf cur - cpuTotalOf st.lastCPUTimes -
        (cpuIdleOf cur - cpuIdleOf st.lastCPUTimes)) /
          (cpuTotalOf cur - cpuTotalOf st.lastCPUTimes) * 100 =
        100 * (cpuTotalOf cur - cpuTotalOf st.lastCPUTimes -
          (cpuIdleOf cur - cpuIdleOf st.lastCPUTimes)) /
          (cpuTotalOf cur - cpuTotalOf st.lastCPUTimes) := by ring
    simp [collectCPU, h, hd, e1]

/-- Exporter collector, first sample: report 0 and store the summed totals
and the sample time as baseline. -/
theorem exporterCPU_first_sample (os : Str) (st : ExporterState) (now : ℚ)
    (fams : Families) (mets : List PromMetric) (hlast : st.lastTimestamp = none)
    (hfam : lookupFam fams (getMetricNames os).cpuTime = some mets) :
    (parsePrometheusMetrics os st now fams).1.cpuUsagePercent = 0 ∧
    (parsePrometheusMetrics os st now fams).2.lastCPUTotal
      = (cpuSums (getMetricNames os).cpuIdleLabel mets).1 ∧
    (parsePrometheusMetrics os st now fams).2.lastCPUIdle
      = (cpuSums (getMetricNames os).cpuIdleLabel mets).2 ∧
    (parsePrometheusMetrics os st now fams).2.lastTimestamp = some now := by
  simp [parsePrometheusMetrics, hfam, hlast]

/-- Exporter collector, later sample: the claim formula is reported only
when additionally the current total and the stored baseline total are
positive; otherwise 0. -/
theorem exporterCPU_later_sample (os : Str) (st : ExporterState) (now t : ℚ)
    (fams : Families) (mets : List PromMetric) (hlast : st.lastTimestamp = some t)
    (hfam : lookupFam fams (getMetricNames os).cpuTime = some mets) :
    (parsePrometheusMetrics os st now fams).1.cpuUsagePercent =
      (if 0 < (cpuSums (getMetricNames os).cpuIdleLabel mets).1 ∧ 0 < st.lastCPUTotal ∧
          0 < (cpuSums (getMetricNames os).cpuIdleLabel mets).1 - st.lastCPUTotal then
        utilRound (100 *
            (((cpuSums (getMetricNames os).cpuIdleLabel mets).1 - st.lastCPUTotal)
              - ((cpuSums (getMetricNames os).cpuIdleLabel mets).2 - st.lastCPUIdle)) /
          ((cpuSums (getMetricNames os).cpuIdleLabel mets).1 - st.lastCPUTotal))
      else 0) := by
  simp only [parsePrometheusMetrics, hfam, hlast]
  by_cases h1 : 0 < (cpuSums (getMetricNames os).cpuIdleLabel mets).1
  · by_cases h2 : 0 < st.lastCPUTotal
    · by_cases h3 :
        0 < (cpuSums (getMetricNames os).cpuIdleLabel mets).1 - st.lastCPUTotal
      · simp only [ne_eq, reduceCtorEq, not_false_iff, true_and, h1, h2, h3, and_true,
          if_true]
        have hne : (cpuSums (getMetricNames os).cpuIdleLabel mets).1 - st.lastCPUTotal ≠ 0 :=
          ne_of_gt h3
        congr 1
        field_simp
        ring
      · simp [h1, h2, h3]
    · simp [h1, h2]
  · simp [h1]

/-- C5 (amended): the builtin collector satisfies the claimed state machine
exactly (first sample returns 0 and stores the `(times, now)` baseline;
later samples return 0 when `Δtotal ≤ 0` and otherwise the rounded
`100·(Δtotal − Δidle)/Δtotal`); the exporter collector additionally
reports 0 on a later sample whenever the current total or the stored
baseline total is not positive, and it stores the summed `(total, idle)`
plus the sample time as baseline on the first sample. -/
theorem C5_cpu_rate_state_machine :
    (∀ (st : BuiltinState) (now : ℚ) (cur : CPUTimes) (rest : List CPUTimes),
      st.hasCPUTimes = false →
      collectCPU st now (.ok (cur :: rest)) =
        (.ok 0, { st with lastCPUTimes := cur, hasCPUTimes := true,
                          lastTimestamp := some now })) ∧
    (∀ (st : BuiltinState) (now : ℚ) (cur : CPUTimes) (rest : List CPUTimes),
      st.hasCPUTimes = true →
      collectCPU st now (.ok (cur :: rest)) =
        (.ok (if cpuTotalOf cur - cpuTotalOf st.lastCPUTimes ≤ 0 then 0
              else utilRound (100 * ((cpuTotalOf cur - cpuTotalOf st.lastCPUTimes) -
                     (cpuIdleOf cur - cpuIdleOf st.lastCPUTimes)) /
                     (cpuTotalOf cur - cpuTotalOf st.lastCPUTimes))),
         { st with lastCPUTimes := cur, lastTimestamp := some now })) ∧
    (∀ (os : Str) (st : ExporterState) (now : ℚ) (fams : Families) (mets : List PromMetric),
      st.lastTimestamp = none →
      lookupFam fams (getMetricNames os).cpuTime = some mets →
      (parsePrometheusMetrics os st now fams).1.cpuUsagePercent = 0 ∧
      (parsePrometheusMetrics os st now fams).2.lastCPUTotal
        = (cpuSums (getMetricNames os).cpuIdleLabel mets).1 ∧
      (parsePrometheusMetrics os st now fams).2.lastCPUIdle
        = (cpuSums (getMetricNames os).cpuIdleLabel mets).2 ∧
      (parsePrometheusMetrics os st now fams).2.lastTimestamp = some now) ∧
    (∀ (os : Str) (st : ExporterState) (now t : ℚ) (fams : Families) (mets : List PromMetric),
      st.lastTimestamp = some t →
      lookupFam fams (getMetricNames os).cpuTime = some mets →
      (parsePrometheusMetrics os st now fams).1.cpuUsagePercent =
        (if 0 < (cpuSums (getMetricNames os).cpuIdleLabel mets).1 ∧ 0 < st.lastCPUTotal ∧
            0 < (cpuSums (getMetricNames os).cpuIdleLabel mets).1 - st.lastCPUTotal then
          utilRound (100 *
              (((cpuSums (getMetricNames os).cpuIdleLabel mets).1 - st.lastCPUTotal)
                - ((cpuSums (getMetricNames os).cpuIdleLabel mets).2 - st.lastCPUIdle)) /
            ((cpuSums (getMetricNames os).cpuIdleLabel mets).1 - st.lastCPUTotal))
        else 0)) :=
  ⟨collectCPU_first_sample, collectCPU_later_sample,
   exporterCPU_first_sample, exporterCPU_later_sample⟩

/-- CPU times used by the C5 witness. -/
def witnessCT1 : CPUTimes := { user := 3, idle := 1 }

/-- A family list with one CPU metric, used by the C5 witness. -/
def famsW : Families :=
  [(str "node_cpu_seconds_total", [⟨[(str "mode", str "idle")], some 1, none⟩])]

/-- Witness for `C5_cpu_rate_state_machine`: the builtin first-sample
clause at a concrete state and the exporter first-sample clause at a
concrete family list. -/
theorem C5_cpu_rate_state_machine_witness :
    (initBuiltinState.hasCPUTimes = false ∧
      collectCPU initBuiltinState 5 (.ok [witnessCT1]) =
        (.ok 0, { lastTimestamp := some 5, lastCPUTimes := witnessCT1, hasCPUTimes := true,
                  lastDiskIo := [] })) ∧
    (initExporterState.lastTimestamp = none ∧
      (parsePrometheusMetrics (str "linux") initExporterState 7 famsW).1.cpuUsagePercent
        = 0) :=
  ⟨⟨rfl, C5_cpu_rate_state_machine.1 initBuiltinState 5 witnessCT1 [] rfl⟩,
   ⟨rfl, (C5_cpu_rate_state_machine.2.2.1 (str "linux") initExporterState 7 famsW
      _ rfl rfl).1⟩⟩

/-- First scrape of the C5 counterexample: all CPU counters are zero, so
the stored baseline total is zero. -/
def famsZ : Families :=
  [(str "node_cpu_seconds_total",
    [⟨[(str "mode", str "idle")], some 0, none⟩, ⟨[(str "mode", str "user")], some 0, none⟩])]

/-- Second scrape of the C5 counterexample: `total = 1000`, `idle = 250`. -/
def famsP : Families :=
  [(str "node_cpu_seconds_total",
    [⟨[(str "mode", str "idle")], some 250, none⟩,
     ⟨[(str "mode", str "user")], some 750, none⟩])]

/-- The exporter state after the first counterexample scrape at time 100. -/
def c5st1 : ExporterState := (exporterSample (str "linux") initExporterState 0 100 famsZ).2

/-- The metrics of the second counterexample scrape at time 200. -/
def c5out : SystemMetricsQ := (exporterSample (str "linux") c5st1 200 200 famsP).1

theorem c5st1_fields :
    c5st1.lastCPUTotal = 0 ∧ c5st1.lastCPUIdle = 0 ∧ c5st1.lastTimestamp = some 100 := by
  have h0 : c5st1 = (parsePrometheusMetrics (str "linux") initExporterState 100 famsZ).2 := rfl
  have h := exporterCPU_first_sample (str "linux") initExporterState 100 famsZ
    [⟨[(str "mode", str "idle")], some 0, none⟩, ⟨[(str "mode", str "user")], some 0, none⟩]
    rfl rfl
  rw [h0]
  refine ⟨h.2.1.trans ?_, h.2.2.1.trans ?_, h.2.2.2⟩ <;>
    norm_num [cpuSums, getLabelValue, List.find?]

/-- C5 counterexample: after a first exporter scrape whose CPU counters sum
to zero, the second scrape has `Δtotal = 1000 > 0` and `Δidle = 250`, so
the claim demands `100·(1000 − 250)/1000 = 75.00`, but the code reports 0
because the rate branch also requires a positive stored baseline total. -/
theorem C5_counterexample :
    c5st1.lastTimestamp = some 100 ∧
    c5out.cpuUsagePercent = 0 ∧
    utilRound (100 * ((1000 : ℚ) - 250) / 1000) = 75 ∧ (0 : ℚ) ≠ 75 := by
  obtain ⟨ht, hi, hl⟩ := c5st1_fields
  refine ⟨hl, ?_, ?_, by norm_num⟩
  · have h0 : c5out = (parsePrometheusMetrics (str "linux") c5st1 200 famsP).1 := by
      have : exporterResetCacheIfStale c5st1 200 = c5st1 := by
        rw [exporterResetCacheIfStale.eq_def, hl]
        norm_num [maxMetricsCacheAge]
      rw [c5out, exporterSample, this]
    have h := exporterCPU_later_sample (str "linux") c5st1 200 100 famsP
      [⟨[(str "mode", str "idle")], some 250, none⟩,
       ⟨[(str "mode", str "user")], some 750, none⟩]
      hl rfl
    rw [h0, h, ht]
    norm_num
  · rw [show (100 * ((1000 : ℚ) - 250) / 1000) = ((75 : ℤ) : ℚ) by norm_num]
    rw [utilRound_intCast]
    norm_num

/-! ## C6: metrics validation -/

/-- Characterization of the per-disk validation loop. -/
theorem validateDisks_isSome_iff (b : Bool) (ds : List DiskMetricsQ) :
    (validateDisks b ds).isSome ↔
      ∃ d ∈ ds, d.freePercent < 0 ∨ 100 < d.freePercent ∨ d.freeGB < 0 ∨ d.totalGB < 0 ∨
        (b = false ∧ (d.readBytesPerSec < 0 ∨ d.writeBytesPerSec < 0)) := by
  induction ds with
  | nil => simp [validateDisks]
  | cons d rest ih =>
    simp only [validateDisks, List.mem_cons]
    split_ifs with h1 h2 h3 h4 h5
    · simp only [Option.isSome_some, eq_self_iff_true, true_iff]
      exact ⟨d, Or.inl rfl, h1.elim Or.inl (fun h => Or.inr (Or.inl h))⟩
    · simp only [Option.isSome_some, eq_self_iff_true, true_iff]
      exact ⟨d, Or.inl rfl, Or.inr (Or.inr (Or.inl h2))⟩
    · simp only [Option.isSome_some, eq_self_iff_true, true_iff]
      exact ⟨d, Or.inl rfl, Or.inr (Or.inr (Or.inr (Or.inl h3)))⟩
    · simp only [Option.isSome_some, eq_self_iff_true, true_iff]
      exact ⟨d, Or.inl rfl, Or.inr (Or.inr (Or.inr (Or.inr ⟨h4.1, Or.inl h4.2⟩)))⟩
    · simp only [Option.isSome_some, eq_self_iff_true, true_iff]
      exact ⟨d, Or.inl rfl, Or.inr (Or.inr (Or.inr (Or.inr ⟨h5.1, Or.inr h5.2⟩)))⟩
    · rw [ih]
      constructor
      · rintro ⟨x, hx, hp⟩
        exact ⟨x, Or.inr hx, hp⟩
      · rintro ⟨x, hx | hx, hp⟩
        · subst hx
          rcases hp with hA | hB | hC | hD | ⟨hb, hE | hE⟩
          · exact absurd (Or.inl hA) h1
          · exact absurd (Or.inr hB) h1
          · exact absurd hC h2
          · exact absurd hD h3
          · exact absurd ⟨hb, hE⟩ h4
          · exact absurd ⟨hb, hE⟩ h5
        · exact ⟨x, hx, hp⟩

/-- C6 (amended): `validateMetrics` detects a first sample as
`cpu_usage_percent == 0`; it returns an error iff the CPU value is nonzero
and out of `[0, 100]`, or memory free is negative, or some disk has a bad
gauge, or the CPU value is nonzero and some disk rate is negative — so the
CPU-range and rate checks are skipped on every sample whose CPU value is 0,
not only on actual first samples; on a validation error `ScrapeMetrics`
returns the error and the metrics job publishes nothing. -/
theorem C6_validate_metrics (m : SystemMetricsQ) :
    ((validateMetrics m).isSome ↔
      (m.cpuUsagePercent ≠ 0 ∧ (m.cpuUsagePercent < 0 ∨ 100 < m.cpuUsagePercent)) ∨
      m.memoryFreeGB < 0 ∨
      (∃ d ∈ m.disks, d.freePercent < 0 ∨ 100 < d.freePercent ∨ d.freeGB < 0 ∨
        d.totalGB < 0 ∨
        (m.cpuUsagePercent ≠ 0 ∧ (d.readBytesPerSec < 0 ∨ d.writeBytesPerSec < 0)))) ∧
    (∀ e, validateMetrics m = some e →
      scrapeMetrics (.ok m) = .error e ∧
      metricsJobPublishes (scrapeMetrics (.ok m)) = []) := by
  constructor
  · by_cases hz : m.cpuUsagePercent = 0
    · by_cases hm : m.memoryFreeGB < 0
      · simp only [validateMetrics, hz, decide_True]
        simp [hm, hz]
      · simp only [validateMetrics, hz, decide_True]
        simp only [Bool.true_eq_false, false_and, if_false, if_neg hm,
          validateDisks_isSome_iff]
        simp [hz, hm]
    · by_cases hc : m.cpuUsagePercent < 0 ∨ 100 < m.cpuUsagePercent
      · simp only [validateMetrics, hz, decide_False]
        simp only [true_and, if_pos hc, Option.isSome_some, true_iff]
        tauto
      · by_cases hm : m.memoryFreeGB < 0
        · simp only [validateMetrics, hz, decide_False]
          simp only [true_and, if_neg hc, if_pos hm,
            Option.isSome_some, true_iff]
          tauto
        · simp only [validateMetrics, hz, decide_False]
          simp only [true_and, if_neg hc, if_neg hm,
            validateDisks_isSome_iff]
          simp [hz, hc, hm]
  · intro e he
    simp [scrapeMetrics, metricsJobPublishes, he]

/-- Witness for `C6_validate_metrics` at concrete metrics with a CPU value
of 150, rejected by the range check. -/
theorem C6_validate_metrics_witness :
    ((validateMetrics { cpuUsagePercent := 150, memoryFreeGB := 8, disks := [] }).isSome ↔
      (((150 : ℚ) ≠ 0 ∧ ((150 : ℚ) < 0 ∨ 100 < (150 : ℚ))) ∨
      (8 : ℚ) < 0 ∨
      (∃ d ∈ ([] : List DiskMetricsQ), d.freePercent < 0 ∨ 100 < d.freePercent ∨
        d.freeGB < 0 ∨ d.totalGB < 0 ∨
        ((150 : ℚ) ≠ 0 ∧ (d.readBytesPerSec < 0 ∨ d.writeBytesPerSec < 0))))) ∧
    (∀ e, validateMetrics { cpuUsagePercent := 150, memoryFreeGB := 8, disks := [] } = some e →
      scrapeMetrics (.ok { cpuUsagePercent := 150, memoryFreeGB := 8, disks := [] })
        = .error e ∧
      metricsJobPublishes
        (scrapeMetrics (.ok { cpuUsagePercent := 150, memoryFreeGB := 8, disks := [] }))
        = []) :=
  C6_validate_metrics { cpuUsagePercent := 150, memoryFreeGB := 8, disks := [] }

/-- First scrape of the C6 counterexample: the disk read counter for `/`
is 1000. -/
def fams6a : Families :=
  [(str "node_disk_read_bytes_total", [⟨[(str "mountpoint", str "/")], some 1000, none⟩])]

/-- Second scrape of the C6 counterexample: the read counter dropped to
500 (counter reset) and the filesystem size is 500 GiB. -/
def fams6b : Families :=
  [(str "node_filesystem_size_bytes",
    [⟨[(str "mountpoint", str "/")], none, some 536870912000⟩]),
   (str "node_disk_read_bytes_total", [⟨[(str "mountpoint", str "/")], some 500, none⟩])]

/-- The exporter state after the first C6 scrape at time 100. -/
def c6st1 : ExporterState := (exporterSample (str "linux") initExporterState 0 100 fams6a).2

/-- The metrics of the second C6 scrape at time 200. -/
def c6out : SystemMetricsQ := (exporterSample (str "linux") c6st1 200 200 fams6b).1

/-- The metric names resolved for the Linux build. -/
theorem mnLinux : getMetricNames (str "linux") =
    ⟨str "node_cpu_seconds_total", str "idle", str "node_memory_MemAvailable_bytes",
     str "node_filesystem_avail_bytes", str "node_filesystem_size_bytes",
     str "node_disk_read_bytes_total", str "node_disk_written_bytes_total",
     str "mountpoint"⟩ := rfl

theorem c6st1_eq : c6st1 =
    ⟨some 100, 0, 0, [(str "/", ⟨1000, 0⟩)]⟩ := rfl

theorem lf6b_cpu : lookupFam fams6b (str "node_cpu_seconds_total") = none := rfl

theorem lf6b_memA : lookupFam fams6b (str "node_memory_MemAvailable_bytes") = none := rfl

theorem lf6b_memF : lookupFam fams6b (str "node_memory_MemFree_bytes") = none := rfl

theorem lf6b_free : lookupFam fams6b (str "node_filesystem_avail_bytes") = none := rfl

theorem lf6b_size : lookupFam fams6b (str "node_filesystem_size_bytes") =
    some [⟨[(str "mountpoint", str "/")], none, some 536870912000⟩] := rfl

theorem lf6b_read : lookupFam fams6b (str "node_disk_read_bytes_total") =
    some [⟨[(str "mountpoint", str "/")], some 500, none⟩] := rfl

theorem lf6b_write : lookupFam fams6b (str "node_disk_written_bytes_total") = none := rfl

theorem gl6 : getLabelValue [(str "mountpoint", str "/")] (str "mountpoint") = str "/" := rfl

theorem strSlash_ne : str "/" ≠ [] := by decide

theorem utilRound_500 : utilRound (500 : ℚ) = 500 := by
  rw [show (500 : ℚ) = ((500 : ℤ) : ℚ) by norm_num, utilRound_intCast]

theorem utilRound_neg5 : utilRound (-5 : ℚ) = -5 := by
  rw [show (-5 : ℚ) = ((-5 : ℤ) : ℚ) by norm_num, utilRound_intCast]

theorem utilRound_c6_total : utilRound ((536870912000 : ℚ) / 1024 / 1024 / 1024) = 500 := by
  rw [show ((536870912000 : ℚ) / 1024 / 1024 / 1024) = ((500 : ℤ) : ℚ) by norm_num]
  rw [utilRound_intCast]
  norm_num

theorem utilRound_c6_rate : utilRound (((500 : ℚ) - 1000) / (200 - 100)) = -5 := by
  rw [show (((500 : ℚ) - 1000) / (200 - 100)) = ((-5 : ℤ) : ℚ) by norm_num]
  rw [utilRound_intCast]
  norm_num

theorem c6out_eq : c6out =
    { cpuUsagePercent := 0, memoryFreeGB := 0,
      disks := [⟨str "/", 0, 0, 500, -5, 0⟩] } := by
  have hreset : exporterResetCacheIfStale c6st1 200 = c6st1 := by
    rw [exporterResetCacheIfStale.eq_def, c6st1_eq]
    norm_num [maxMetricsCacheAge]
  have h0 : c6out = (parsePrometheusMetrics (str "linux") c6st1 200 fams6b).1 := by
    rw [c6out, exporterSample, hreset]
  rw [h0, c6st1_eq]
  norm_num [parsePrometheusMetrics, mnLinux, lf6b_cpu, lf6b_memA, lf6b_memF, lf6b_free,
    lf6b_size, lf6b_read, lf6b_write, memorySection, diskFreeLoop, diskSizeLoop,
    diskReadRateLoop, diskWriteRateLoop, gl6, strSlash_ne, upsertDisk, lookupA, storeA,
    List.find?, List.filter, utilRound_500, utilRound_neg5, utilRound_c6_total,
    utilRound_c6_rate]

/-- C6 counterexample: a second exporter sample (its state carries the
time-100 baseline) whose CPU value is 0 and whose disk read rate is
negative passes validation and is published, where the claim demands a
validation error and no publish. -/
theorem C6_counterexample :
    c6st1.lastTimestamp = some 100 ∧
    c6out.cpuUsagePercent = 0 ∧
    (∃ d ∈ c6out.disks, d.readBytesPerSec < 0) ∧
    validateMetrics c6out = none ∧
    scrapeMetrics (.ok c6out) = .ok c6out ∧
    metricsJobPublishes (scrapeMetrics (.ok c6out)) = [c6out] := by
  have hl : c6st1.lastTimestamp = some 100 := by rw [c6st1_eq]
  have hv : validateMetrics c6out = none := by
    rw [c6out_eq]
    norm_num [validateMetrics, validateDisks]
  refine ⟨hl, by rw [c6out_eq], ?_, hv, ?_, ?_⟩
  · rw [c6out_eq]
    exact ⟨_, List.mem_cons_self _ _, by norm_num⟩
  · simp [scrapeMetrics, hv]
  · simp [scrapeMetrics, metricsJobPublishes, hv]

/-! ## C9: staleness reset -/

/-- Wrap-around subtraction of equal counters is zero. -/
theorem u64sub_self (a : ℕ) : u64sub a a = 0 := by
  unfold u64sub
  have h1 : a % 2 ^ 64 ≤ a := Nat.mod_le a _
  have h2 : a + 2 ^ 64 - a % 2 ^ 64 = (a - a % 2 ^ 64) + 2 ^ 64 := by omega
  rw [h2]
  have h3 : a - a % 2 ^ 64 = 2 ^ 64 * (a / 2 ^ 64) := by
    have := Nat.div_add_mod a (2 ^ 64)
    omega
  rw [h3, ← Nat.mul_succ]
  exact Nat.mul_mod_right _ _

/-- Effect of the replace pass of `storeA` on `find?`. -/
theorem find?_map_replace {A : Type} (k k2 : Str) (v : A) (m : List (Str × A)) :
    List.find? (fun p => p.1 = k2) (m.map (fun p => if p.1 = k then (k, v) else p)) =
      (if k2 = k then
        (if (m.find? (fun p => p.1 = k)).isSome then some (k, v) else none)
      else List.find? (fun p => p.1 = k2) m) := by
  induction m with
  | nil =>
    simp only [List.map_nil, List.find?]
    split_ifs with h1 h2
    · simp at h2
    · rfl
    · rfl
  | cons p rest ih =>
    by_cases hpk : p.1 = k
    · by_cases hk2 : k2 = k
      · subst hk2
        simp [List.find?, hpk, ih]
      · have hd1 : (decide ((k, v).1 = k2)) = false := by
          simp only [decide_eq_false_iff_not]
          intro hc
          exact hk2 hc.symm
        have hd2 : (decide (p.1 = k2)) = false := by
          simp only [decide_eq_false_iff_not]
          intro hc
          rw [hpk] at hc
          exact hk2 hc.symm
        simp only [List.map_cons, if_pos hpk, List.find?, hd1, hd2, ih, if_neg hk2]
    · by_cases hpk2 : p.1 = k2
      · have hk2 : ¬ k2 = k := by
          intro hc
          rw [hc] at hpk2
          exact hpk hpk2
        simp [List.find?, hpk, hpk2, hk2]
      · have hd1 : (decide (p.1 = k)) = false := by
          simp only [decide_eq_false_iff_not]
          exact hpk
        have hd2 : (decide (p.1 = k2)) = false := by
          simp only [decide_eq_false_iff_not]
          exact hpk2
        simp only [List.map_cons, if_neg hpk, List.find?, hd1, hd2, ih]

/-- Lookup after store in the association-list map. -/
theorem lookupA_storeA {A : Type} (m : List (Str × A)) (k k2 : Str) (v : A) :
    lookupA (storeA m k v) k2 = if k2 = k then some v else lookupA m k2 := by
  unfold storeA
  by_cases hex : (m.find? fun p => p.1 = k).isSome
  · rw [if_pos hex]
    simp only [lookupA, find?_map_replace, hex, if_pos]
    split_ifs
    · rfl
    · rfl
  · rw [if_neg hex]
    rw [Option.not_isSome_iff_eq_none] at hex
    by_cases hk2 : k2 = k
    · subst hk2
      have hd : (decide ((k2, v).1 = k2)) = true := by simp
      simp only [lookupA, List.find?_append, hex, Option.none_or, List.find?, hd,
        if_pos rfl]
      rfl
    · have hd1 : (decide ((k, v).1 = k2)) = false := by
        simp only [decide_eq_false_iff_not]
        intro hc
        exact hk2 hc.symm
      simp only [lookupA, List.find?_append, if_neg hk2, List.find?, hd1, Option.or_none]

/-- `collectCPU` never touches the disk-counter cache. -/
theorem collectCPU_keeps_diskIO (st : BuiltinState) (now : ℚ)
    (x : Except Str (List CPUTimes)) :
    (collectCPU st now x).2.lastDiskIo = st.lastDiskIo := by
  rcases x with e | l
  · rfl
  · rcases l with _ | ⟨c, rest⟩
    · rfl
    · simp only [collectCPU]
      split_ifs <;> rfl

/-- Every disk produced by the partition loop has zero rates when every
previously cached counter agrees with the current `IOCounters` value: the
computed delta is then a wrap-around difference of equal counters. -/
theorem collectDisksLoop_rates_zero (os : Str) (timeDelta : ℚ) (isF : Bool)
    (ioOpt : Option (List (Str × DiskIOStat))) (usage : Str → Except Str UsageStat) :
    ∀ (parts : List PartitionStat) (lastIo : List (Str × DiskIOStat)),
      (∀ k w, lookupA lastIo k = some w →
        ∀ io, ioOpt = some io → lookupA io k = some w) →
      ∀ d ∈ (collectDisksLoop os timeDelta isF ioOpt usage parts lastIo).1,
        d.readBytesPerSec = 0 ∧ d.writeBytesPerSec = 0 := by
  rcases ioOpt with _ | io
  · -- no I/O counters at all: no rate is ever computed
    intro parts
    induction parts with
    | nil =>
      intro lastIo _ d hd
      simp [collectDisksLoop] at hd
    | cons p rest ih =>
      intro lastIo hinv d hd
      rw [collectDisksLoop] at hd
      by_cases hskip : shouldSkipPartition p
      · rw [if_pos hskip] at hd
        exact ih lastIo hinv d hd
      · rw [if_neg hskip] at hd
        rcases hu : usage p.mountpoint with e | u
        · simp only [hu] at hd
          exact ih lastIo hinv d hd
        · simp only [hu] at hd
          by_cases hsmall : u.total < 1073741824
          · rw [if_pos hsmall] at hd
            exact ih lastIo hinv d hd
          · rw [if_neg hsmall] at hd
            simp only [List.mem_cons] at hd
            rcases hd with rfl | hd
            · exact ⟨by trivial, by trivial⟩
            · exact ih lastIo hinv d hd
  · -- I/O counters present: the cached counter always equals the current one
    intro parts
    induction parts with
    | nil =>
      intro lastIo _ d hd
      simp [collectDisksLoop] at hd
    | cons p rest ih =>
      intro lastIo hinv d hd
      have hinvio : ∀ k w, lookupA lastIo k = some w → lookupA io k = some w :=
        fun k w h => hinv k w h io rfl
      rw [collectDisksLoop] at hd
      by_cases hskip : shouldSkipPartition p
      · rw [if_pos hskip] at hd
        exact ih lastIo hinv d hd
      · rw [if_neg hskip] at hd
        rcases hu : usage p.mountpoint with e | u
        · simp only [hu] at hd
          exact ih lastIo hinv d hd
        · simp only [hu] at hd
          by_cases hsmall : u.total < 1073741824
          · rw [if_pos hsmall] at hd
            exact ih lastIo hinv d hd
          · rw [if_neg hsmall] at hd
            have hstoreinv : ∀ ioStat, lookupA io (getDeviceName os p) = some ioStat →
                ∀ k w, lookupA (storeA lastIo (getDeviceName os p) ioStat) k = some w →
                ∀ io2, some io = some io2 → lookupA io2 k = some w := by
              intro ioStat hdev k w h io2 h2
              cases h2
              rw [lookupA_storeA] at h
              by_cases hk : k = getDeviceName os p
              · rw [if_pos hk] at h
                cases h
                rw [hk]
                exact hdev
              · rw [if_neg hk] at h
                exact hinvio k w h
            by_cases hrate : isF = false ∧ 0 < timeDelta
            · rw [if_pos hrate] at hd
              rcases hdev : lookupA io (getDeviceName os p) with _ | ioStat
              · simp only [hdev] at hd
                simp only [List.mem_cons] at hd
                rcases hd with rfl | hd
                · exact ⟨by trivial, by trivial⟩
                · exact ih lastIo hinv d hd
              · simp only [hdev] at hd
                simp only [List.mem_cons] at hd
                rcases hd with rfl | hd
                · rcases hprev : lookupA lastIo (getDeviceName os p) with _ | prev
                  · simp only [hprev]
                    exact ⟨by trivial, by trivial⟩
                  · have hsame : prev = ioStat := by
                      have h1 := hinvio (getDeviceName os p) prev hprev
                      rw [hdev] at h1
                      exact (Option.some.injEq _ _).mp h1.symm
                    simp only [hprev, hsame, u64sub_self, Nat.cast_zero, zero_div,
                      utilRound_zero]
                    exact ⟨by trivial, by trivial⟩
                · exact ih (storeA lastIo (getDeviceName os p) ioStat)
                    (hstoreinv ioStat hdev) d hd
            · rw [if_neg hrate] at hd
              rcases hdev : lookupA io (getDeviceName os p) with _ | ioStat
              · simp only [hdev] at hd
                simp only [List.mem_cons] at hd
                rcases hd with rfl | hd
                · exact ⟨by trivial, by trivial⟩
                · exact ih lastIo hinv d hd
              · simp only [hdev] at hd
                simp only [List.mem_cons] at hd
                rcases hd with rfl | hd
                · exact ⟨by trivial, by trivial⟩
                · exact ih (storeA lastIo (getDeviceName os p) ioStat)
                    (hstoreinv ioStat hdev) d hd

/-- `upsertDisk` with a rate-preserving update keeps all rates zero. -/
theorem upsertDisk_rates_zero (dd : List (Str × DiskMetricsQ)) (vol : Str)
    (f : DiskMetricsQ → DiskMetricsQ)
    (hf : ∀ x, (f x).readBytesPerSec = x.readBytesPerSec ∧
      (f x).writeBytesPerSec = x.writeBytesPerSec)
    (hdd : ∀ p ∈ dd, p.2.readBytesPerSec = 0 ∧ p.2.writeBytesPerSec = 0) :
    ∀ p ∈ upsertDisk dd vol f, p.2.readBytesPerSec = 0 ∧ p.2.writeBytesPerSec = 0 := by
  intro p hp
  unfold upsertDisk at hp
  rcases h : lookupA dd vol with _ | old
  · simp only [h] at hp
    rcases List.mem_append.mp hp with h1 | h1
    · exact hdd p h1
    · simp only [List.mem_singleton] at h1
      subst h1
      refine ⟨(hf _).1.trans ?_, (hf _).2.trans ?_⟩ <;> rfl
  · simp only [h] at hp
    rcases List.mem_map.mp hp with ⟨q, hq, rfl⟩
    by_cases hqv : q.1 = vol
    · simp only [if_pos hqv]
      exact ⟨(hf _).1.trans (hdd q hq).1, (hf _).2.trans (hdd q hq).2⟩
    · simp only [if_neg hqv]
      exact hdd q hq

/-- The free-bytes loop keeps all rates zero. -/
theorem diskFreeLoop_rates_zero (vl : Str) :
    ∀ (mets : List PromMetric) (dd : List (Str × DiskMetricsQ)),
      (∀ p ∈ dd, p.2.readBytesPerSec = 0 ∧ p.2.writeBytesPerSec = 0) →
      ∀ p ∈ diskFreeLoop vl mets dd,
        p.2.readBytesPerSec = 0 ∧ p.2.writeBytesPerSec = 0 := by
  intro mets
  induction mets with
  | nil =>
    intro dd hdd p hp
    simpa [diskFreeLoop] using hdd p (by simpa [diskFreeLoop] using hp)
  | cons m rest ih =>
    intro dd hdd p hp
    rw [diskFreeLoop] at hp
    rcases hg : m.gauge with _ | g
    · simp only [hg] at hp
      exact ih dd hdd p hp
    · simp only [hg] at hp
      by_cases hv : getLabelValue m.labels vl ≠ []
      · rw [if_pos hv] at hp
        refine ih _ ?_ p hp
        exact upsertDisk_rates_zero dd _ _ (fun x => ⟨rfl, rfl⟩) hdd
      · rw [if_neg hv] at hp
        exact ih dd hdd p hp

/-- The size-bytes loop keeps all rates zero. -/
theorem diskSizeLoop_rates_zero (vl : Str) :
    ∀ (mets : List PromMetric) (dd : List (Str × DiskMetricsQ)),
      (∀ p ∈ dd, p.2.readBytesPerSec = 0 ∧ p.2.writeBytesPerSec = 0) →
      ∀ p ∈ diskSizeLoop vl mets dd,
        p.2.readBytesPerSec = 0 ∧ p.2.writeBytesPerSec = 0 := by
  intro mets
  induction mets with
  | nil =>
    intro dd hdd p hp
    simpa [diskSizeLoop] using hdd p (by simpa [diskSizeLoop] using hp)
  | cons m rest ih =>
    intro dd hdd p hp
    rw [diskSizeLoop] at hp
    rcases hg : m.gauge with _ | g
    · simp only [hg] at hp
      exact ih dd hdd p hp
    · simp only [hg] at hp
      by_cases hv : getLabelValue m.labels vl ≠ []
      · rw [if_pos hv] at hp
        refine ih _ ?_ p hp
        refine upsertDisk_rates_zero dd _ _ (fun x => ?_) hdd
        by_cases hc : 0 < x.freeGB ∧ 0 < g
        · simp [hc]
        · simp [hc]
      · rw [if_neg hv] at hp
        exact ih dd hdd p hp

/-- After a parse whose starting cache is empty (first sample), the CPU
value is 0 and every reported disk rate is 0. -/
theorem exporterParse_first_sample_zero (os : Str) (st : ExporterState) (now : ℚ)
    (fams : Families) (hlast : st.lastTimestamp = none) :
    (parsePrometheusMetrics os st now fams).1.cpuUsagePercent = 0 ∧
    ∀ d ∈ (parsePrometheusMetrics os st now fams).1.disks,
      d.readBytesPerSec = 0 ∧ d.writeBytesPerSec = 0 := by
  have hdd0 : ∀ p ∈ (match lookupFam fams (getMetricNames os).diskFreeBytes with
      | some mets => diskFreeLoop (getMetricNames os).volumeLabel mets []
      | none => []),
      p.2.readBytesPerSec = 0 ∧ p.2.writeBytesPerSec = 0 := by
    rcases hf : lookupFam fams (getMetricNames os).diskFreeBytes with _ | mets
    · simp
    · simp only []
      exact diskFreeLoop_rates_zero _ mets [] (by simp)
  have hdd1 : ∀ p ∈ (match lookupFam fams (getMetricNames os).diskSizeBytes with
      | some mets => diskSizeLoop (getMetricNames os).volumeLabel mets
          (match lookupFam fams (getMetricNames os).diskFreeBytes with
           | some mets0 => diskFreeLoop (getMetricNames os).volumeLabel mets0 []
           | none => [])
      | none =>
          (match lookupFam fams (getMetricNames os).diskFreeBytes with
           | some mets0 => diskFreeLoop (getMetricNames os).volumeLabel mets0 []
           | none => [])),
      p.2.readBytesPerSec = 0 ∧ p.2.writeBytesPerSec = 0 := by
    rcases hs : lookupFam fams (getMetricNames os).diskSizeBytes with _ | mets
    · exact hdd0
    · exact diskSizeLoop_rates_zero _ mets _ hdd0
  constructor
  · rcases hcf : lookupFam fams (getMetricNames os).cpuTime with _ | mets
    · simp [parsePrometheusMetrics, hcf]
    · simp [parsePrometheusMetrics, hcf, hlast]
  · intro d hd
    rcases hcf : lookupFam fams (getMetricNames os).cpuTime with _ | mets <;>
      simp only [parsePrometheusMetrics, hcf, hlast] at hd <;>
    · rcases List.mem_filter.mp hd with ⟨hmem, _⟩
      rcases List.mem_map.mp hmem with ⟨p, hp, rfl⟩
      exact hdd1 p hp

/-- The CPU value reported by `Collect` from a fresh builtin state is 0,
whatever the oracle returns. -/
theorem collectCPU_init_report_zero (now : ℚ) (x : Except Str (List CPUTimes)) :
    (match (collectCPU initBuiltinState now x).1 with
     | .ok v => v
     | .error _ => 0) = 0 := by
  rcases x with e | l
  · rfl
  · rcases l with _ | ⟨c, r⟩
    · rfl
    · simp [collectCPU, initBuiltinState]

/-- C9: if more than `maxMetricsCacheAge` elapses between samples, both
collectors drop their entire rate cache before sampling, and the later
sample behaves as a first sample: CPU 0 and all disk rates 0. -/
theorem C9_staleness_reset :
    (∀ (os : Str) (st : BuiltinState) (last tReset tCPU tDisk : ℚ) (o : BuiltinOracles),
      st.lastTimestamp = some last → maxMetricsCacheAge < tReset - last →
      builtinResetCacheIfStale st tReset = initBuiltinState ∧
      ∀ m, (builtinCollect os st tReset tCPU tDisk o).1 = Except.ok m →
        m.cpuUsagePercent = 0 ∧
        ∀ d ∈ m.disks, d.readBytesPerSec = 0 ∧ d.writeBytesPerSec = 0) ∧
    (∀ (os : Str) (st : ExporterState) (last tReset tNow : ℚ) (fams : Families),
      st.lastTimestamp = some last → maxMetricsCacheAge < tReset - last →
      exporterResetCacheIfStale st tReset = initExporterState ∧
      (exporterSample os st tReset tNow fams).1.cpuUsagePercent = 0 ∧
      ∀ d ∈ (exporterSample os st tReset tNow fams).1.disks,
        d.readBytesPerSec = 0 ∧ d.writeBytesPerSec = 0) := by
  constructor
  · intro os st last tR tC tD o hlast hstale
    have hreset : builtinResetCacheIfStale st tR = initBuiltinState := by
      rw [builtinResetCacheIfStale.eq_def, hlast]
      show (if maxMetricsCacheAge < tR - last then initBuiltinState else st)
        = initBuiltinState
      rw [if_pos hstale]
    refine ⟨hreset, ?_⟩
    intro m hm
    simp only [builtinCollect, hreset] at hm
    injection hm with hm2
    subst hm2
    constructor
    · exact collectCPU_init_report_zero tC o.cpuTimes
    · intro d hd
      have hio0 : (collectCPU initBuiltinState tC o.cpuTimes).2.lastDiskIo = [] :=
        collectCPU_keeps_diskIO initBuiltinState tC o.cpuTimes
      rcases hp : o.partsRes with e | parts
      · simp only [collectDisks, hp] at hd
        simp at hd
      · simp only [collectDisks, hp] at hd
        refine collectDisksLoop_rates_zero os _ _ _ o.usage parts
          (collectCPU initBuiltinState tC o.cpuTimes).2.lastDiskIo ?_ d hd
        rw [hio0]
        intro k w h
        simp [lookupA, List.find?] at h
  · intro os st last tR tN fams hlast hstale
    have hreset : exporterResetCacheIfStale st tR = initExporterState := by
      rw [exporterResetCacheIfStale.eq_def, hlast]
      show (if maxMetricsCacheAge < tR - last then initExporterState else st)
        = initExporterState
      rw [if_pos hstale]
    have hmain := exporterParse_first_sample_zero os initExporterState tN fams rfl
    refine ⟨hreset, ?_, ?_⟩
    · rw [exporterSample, hreset]
      exact hmain.1
    · rw [exporterSample, hreset]
      exact hmain.2

/-- The stale builtin state of the C9 witness, last sampled at time 0. -/
def c9stB : BuiltinState := ⟨some 0, {}, true, [(str "sda", ⟨5, 5⟩)]⟩

/-- The stale exporter state of the C9 witness, last sampled at time 0. -/
def c9stE : ExporterState := ⟨some 0, 7, 3, [(str "/", ⟨9, 9⟩)]⟩

theorem c9wit_lt : maxMetricsCacheAge < (1000 : ℚ) - 0 := by
  norm_num [maxMetricsCacheAge]

/-- Witness for `C9_staleness_reset` at time 1000 over states last sampled
at time 0. -/
theorem C9_staleness_reset_witness :
    (c9stB.lastTimestamp = some 0 ∧ maxMetricsCacheAge < (1000 : ℚ) - 0 ∧
      (builtinResetCacheIfStale c9stB 1000 = initBuiltinState ∧
       ∀ m, (builtinCollect (str "linux") c9stB 1000 1000 1000 builtinOraclesFail).1
          = Except.ok m →
         m.cpuUsagePercent = 0 ∧
         ∀ d ∈ m.disks, d.readBytesPerSec = 0 ∧ d.writeBytesPerSec = 0)) ∧
    (c9stE.lastTimestamp = some 0 ∧
      (exporterResetCacheIfStale c9stE 1000 = initExporterState ∧
       (exporterSample (str "linux") c9stE 1000 1000 []).1.cpuUsagePercent = 0 ∧
       ∀ d ∈ (exporterSample (str "linux") c9stE 1000 1000 []).1.disks,
         d.readBytesPerSec = 0 ∧ d.writeBytesPerSec = 0)) :=
  ⟨⟨rfl, c9wit_lt,
    C9_staleness_reset.1 (str "linux") c9stB 0 1000 1000 1000 builtinOraclesFail rfl c9wit_lt⟩,
   ⟨rfl,
    C9_staleness_reset.2 (str "linux") c9stE 0 1000 1000 [] rfl c9wit_lt⟩⟩

/-! ## Command handlers and self-metrics (`internal/nats/handlers.go`,
`Executor.RecordCommandSuccess` / `RecordCommandError`)

Each handler is a function of the stats state and the oracle outcomes of
parsing and of the executor call; its result is the new stats state and
the list of replies sent with `msg.Respond`.  Reply payload fields other
than `status` and `error` are not modelled (no claim concerns them);
timestamps of replies are likewise elided. -/

/-- The self-metrics counters of `ExecutorStats`. -/
structure ExecutorStats where
  commandsProcessed : ℤ
  commandsErrored : ℤ
  lastError : Str
  lastErrorTime : Option ℚ
deriving DecidableEq

/-- `RecordCommandSuccess`. -/
def recordCommandSuccess (s : ExecutorStats) : ExecutorStats :=
  { s with commandsProcessed := s.commandsProcessed + 1 }

/-- `RecordCommandError`: an error still counts as processed. -/
def recordCommandError (s : ExecutorStats) (err : Str) (now : ℚ) : ExecutorStats :=
  { s with
    commandsErrored := s.commandsErrored + 1,
    commandsProcessed := s.commandsProcessed + 1,
    lastError := err,
    lastErrorTime := some now }

/-- A reply published to the request's reply subject. -/
structure Reply where
  status : Str
  error : Str := []
deriving DecidableEq

/-- `handlePing`: replies pong and touches no counter. -/
def handlePing (s : ExecutorStats) : ExecutorStats × List Reply :=
  (s, [{ status := str "pong" }])

/-- `handleHealth`: replies healthy and touches no counter. -/
def handleHealth (s : ExecutorStats) : ExecutorStats × List Reply :=
  (s, [{ status := str "healthy" }])

/-- `handleServiceControl` given the `json.Unmarshal` outcome (the parsed
action and service name, or the unmarshal error) and the `ControlService`
outcome. -/
def handleServiceControl (s : ExecutorStats) (now : ℚ)
    (parse : Except Str (Str × Str)) (control : Except Str Str) :
    ExecutorStats × List Reply :=
  match parse with
  | .error e =>
    (recordCommandError s e now,
     [{ status := str "error", error := str "Invalid request format" }])
  | .ok _ =>
    match control with
    | .error e => (recordCommandError s e now, [{ status := str "error", error := e }])
    | .ok _ => (recordCommandSuccess s, [{ status := str "success" }])

/-- `handleLogFetch` given the unmarshal outcome and the `FetchLogLines`
outcome. -/
def handleLogFetch (s : ExecutorStats) (now : ℚ)
    (parse : Except Str (Str × ℤ)) (fetch : Except Str (List Str)) :
    ExecutorStats × List Reply :=
  match parse with
  | .error e =>
    (recordCommandError s e now,
     [{ status := str "error", error := str "Invalid request format" }])
  | .ok _ =>
    match fetch with
    | .error e => (recordCommandError s e now, [{ status := str "error", error := e }])
    | .ok _ => (recordCommandSuccess s, [{ status := str "success" }])

/-- `handleCustomExec` given the unmarshal outcome and the
`ExecuteCommand` outcome. -/
def handleCustomExec (s : ExecutorStats) (now : ℚ)
    (parse : Except Str Str) (execRes : Except Str (Str × ℤ)) :
    ExecutorStats × List Reply :=
  match parse with
  | .error e =>
    (recordCommandError s e now,
     [{ status := str "error", error := str "Invalid request format" }])
  | .ok _ =>
    match execRes with
    | .error e => (recordCommandError s e now, [{ status := str "error", error := e }])
    | .ok _ => (recordCommandSuccess s, [{ status := str "success" }])

/-- The observable outcome of one handler body: the replies it sent before
returning or panicking, and the panic value when it panicked. -/
structure HandlerOutcome where
  sent : List Reply
  panicMsg : Option Str
deriving DecidableEq

/-- `handleWithRecovery`: the deferred `recover` turns a panic into one
additional error reply; the wrapper itself always returns normally, so the
process stays alive. -/
def handleWithRecovery (outcome : HandlerOutcome) : List Reply :=
  match outcome.panicMsg with
  | none => outcome.sent
  | some p =>
    outcome.sent ++
      [{ status := str "error", error := str "Internal error: handler panicked: " ++ p }]

/-- The initial stats state of a fresh executor. -/
def statsInit : ExecutorStats := ⟨0, 0, [], none⟩

/-- C7 counterexample: on a successful ping the claim demands
`commands_processed` to grow by one, but `handlePing` leaves every counter
untouched (and `handleHealth` behaves the same). -/
theorem C7_counterexample :
    (handlePing statsInit).2 = [{ status := str "pong", error := [] }] ∧
    (handlePing statsInit).1.commandsProcessed = 0 ∧
    ¬ (handlePing statsInit).1.commandsProcessed = statsInit.commandsProcessed + 1 ∧
    (handleHealth statsInit).1 = statsInit := by
  refine ⟨rfl, rfl, by decide, rfl⟩

/-- C7 (amended): the service, logs and exec handlers increment both
`commands_errored` and `commands_processed` and record the error string
and time on a parse or execution failure, and increment
`commands_processed` alone on success; the ping and health handlers leave
the counters untouched. -/
theorem C7_handler_counters :
    (∀ (s : ExecutorStats) (e : Str) (now : ℚ),
      (recordCommandError s e now).commandsErrored = s.commandsErrored + 1 ∧
      (recordCommandError s e now).commandsProcessed = s.commandsProcessed + 1 ∧
      (recordCommandError s e now).lastError = e ∧
      (recordCommandError s e now).lastErrorTime = some now) ∧
    (∀ s : ExecutorStats,
      (recordCommandSuccess s).commandsProcessed = s.commandsProcessed + 1 ∧
      (recordCommandSuccess s).commandsErrored = s.commandsErrored) ∧
    (∀ (s : ExecutorStats) (now : ℚ) (e : Str) (c : Except Str Str),
      (handleServiceControl s now (.error e) c).1 = recordCommandError s e now) ∧
    (∀ (s : ExecutorStats) (now : ℚ) (req : Str × Str) (e : Str),
      (handleServiceControl s now (.ok req) (.error e)).1 = recordCommandError s e now) ∧
    (∀ (s : ExecutorStats) (now : ℚ) (req : Str × Str) (r : Str),
      (handleServiceControl s now (.ok req) (.ok r)).1 = recordCommandSuccess s) ∧
    (∀ (s : ExecutorStats) (now : ℚ) (e : Str) (f : Except Str (List Str)),
      (handleLogFetch s now (.error e) f).1 = recordCommandError s e now) ∧
    (∀ (s : ExecutorStats) (now : ℚ) (req : Str × ℤ) (e : Str),
      (handleLogFetch s now (.ok req) (.error e)).1 = recordCommandError s e now) ∧
    (∀ (s : ExecutorStats) (now : ℚ) (req : Str × ℤ) (ls : List Str),
      (handleLogFetch s now (.ok req) (.ok ls)).1 = recordCommandSuccess s) ∧
    (∀ (s : ExecutorStats) (now : ℚ) (e : Str) (x : Except Str (Str × ℤ)),
      (handleCustomExec s now (.error e) x).1 = recordCommandError s e now) ∧
    (∀ (s : ExecutorStats) (now : ℚ) (cmd : Str) (e : Str),
      (handleCustomExec s now (.ok cmd) (.error e)).1 = recordCommandError s e now) ∧
    (∀ (s : ExecutorStats) (now : ℚ) (cmd : Str) (r : Str × ℤ),
      (handleCustomExec s now (.ok cmd) (.ok r)).1 = recordCommandSuccess s) ∧
    (∀ s : ExecutorStats, (handlePing s).1 = s) ∧
    (∀ s : ExecutorStats, (handleHealth s).1 = s) := by
  refine ⟨fun s e now => ⟨rfl, rfl, rfl, rfl⟩, fun s => ⟨rfl, rfl⟩, ?_, ?_, ?_, ?_, ?_, ?_,
    ?_, ?_, ?_, ?_, ?_⟩ <;> intros <;> rfl

/-- A string that starts with `q` still starts with `q` after appending. -/
theorem startsWith_append (a b q : Str) (h : startsWith a q = true) :
    startsWith (a ++ b) q = true := by
  induction q generalizing a with
  | nil =>
    have hnil : ∀ s : Str, startsWith s [] = true := by
      intro s
      cases s <;> rfl
    exact hnil _
  | cons c q ih =>
    cases a with
    | nil => simp [startsWith] at h
    | cons d a2 =>
      simp only [List.cons_append, startsWith, Bool.and_eq_true] at h ⊢
      exact ⟨h.1, ih a2 h.2⟩

/-- C8: a panic in a handler body with the request still pending (no reply
sent yet) is caught by `handleWithRecovery`: the wrapper returns normally
(the process does not exit) having sent exactly one reply, whose status is
`error` and whose message begins with `Internal error:`. -/
theorem C8_panic_recovery (outcome : HandlerOutcome) (p : Str)
    (hp : outcome.panicMsg = some p) (hpend : outcome.sent = []) :
    ∃ r, handleWithRecovery outcome = [r] ∧
      r.status = str "error" ∧
      startsWith r.error (str "Internal error:") = true := by
  refine ⟨{ status := str "error",
            error := str "Internal error: handler panicked: " ++ p }, ?_, rfl, ?_⟩
  · rw [handleWithRecovery, hp, hpend]
    rfl
  · exact startsWith_append (str "Internal error: handler panicked: ") p
      (str "Internal error:") (by decide)

/-- Witness for `C8_panic_recovery` at a concrete panicking outcome. -/
theorem C8_panic_recovery_witness :
    ({ sent := [], panicMsg := some (str "boom") } : HandlerOutcome).panicMsg
        = some (str "boom") ∧
    ({ sent := [], panicMsg := some (str "boom") } : HandlerOutcome).sent = [] ∧
    ∃ r, handleWithRecovery { sent := [], panicMsg := some (str "boom") } = [r] ∧
      r.status = str "error" ∧
      startsWith r.error (str "Internal error:") = true :=
  ⟨rfl, rfl,
   C8_panic_recovery { sent := [], panicMsg := some (str "boom") } (str "boom") rfl rfl⟩

/-! ## Log tailing (`internal/tasks/logs.go`)

`FetchLogLines` is modelled on the content of the requested file: the glob
oracle stands for the filesystem as in the path gate above, and the byte
sequence of the file stands for the opened file. -/

/-- `dropCR` of `bufio.ScanLines`: remove one line-terminating carriage
return. -/
def dropCR (s : Str) : Str :=
  if s.getLast? = some crChar then s.dropLast else s

/-- The tokens produced by `bufio.Scanner` with the default `ScanLines`
split: the newline-separated segments, each with one trailing carriage
return removed; a trailing newline yields no final empty token and an empty
input yields no tokens. -/
def scanLines (content : Str) : List Str :=
  if content = [] then []
  else if content.getLast? = some nlChar then
    ((splitOnChar nlChar content).dropLast).map dropCR
  else (splitOnChar nlChar content).map dropCR

/-- `bufio.MaxScanTokenSize`: the default scanner fails on a segment of
64 KiB or more. -/
def maxScanTokenSize : ℕ := 65536

/-- `readAllLines`: scan all lines, failing like `scanner.Err()` when some
segment reaches the scanner's token limit, and return the last `n` tokens. -/
def readAllLines (content : Str) (n : ℕ) : Except Str (List Str) :=
  if (splitOnChar nlChar content).any (fun s => maxScanTokenSize ≤ s.length) then
    .error (str "error reading file: bufio.Scanner: token too long")
  else
    let lines := scanLines content
    if lines.length ≤ n then .ok lines
    else .ok (lines.drop (lines.length - n))

/-- The backward pass of `readLastNLines` over one chunk, given here already
reversed (the source walks `buffer` from index `readSize-1` down to `0`): a
newline flushes the pending line when it is nonempty and breaks once `n`
lines are held (the `Bool` records the break); carriage returns are
skipped; any other byte is appended to the pending, reversed, line. -/
def procChunk (n : ℕ) : Str → List Str → Str → List Str × Str × Bool
  | [], lines, cur => (lines, cur, false)
  | b :: rest, lines, cur =>
    if b = nlChar then
      let p : List Str × Str := if cur = [] then (lines, cur) else (cur :: lines, [])
      if n ≤ p.1.length then (p.1, p.2, true)
      else procChunk n rest p.1 p.2
    else if b = crChar then procChunk n rest lines cur
    else procChunk n rest lines (cur ++ [b])

/-- The chunked outer loop of `readLastNLines`: while fewer than `n` lines
are held and bytes remain, take the previous block of at most 4096 bytes
and process it backwards (a break inside the chunk ends the next iteration
through the loop condition, as in the source). -/
def readChunks (n : ℕ) (content : Str) : ℕ → List Str → Str → List Str × Str
  | pos, lines, cur =>
    if _h : lines.length < n ∧ 0 < pos then
      readChunks n content (pos - min 4096 pos)
        (procChunk n ((content.take pos).drop (pos - min 4096 pos)).reverse lines cur).1
        (procChunk n ((content.take pos).drop (pos - min 4096 pos)).reverse lines cur).2.1
    else (lines, cur)
termination_by pos _ _ => pos
decreasing_by simp_wf; omega

/-- `readLastNLines`: scan backwards from the end of the file; the leftover
partial line is reversed and prepended, and, exactly as in the source, the
final reversing pass skips that first entry; every flushed line, built
backwards, is reversed into file order. -/
def readLastNLines (content : Str) (n : ℕ) : List Str :=
  let r := readChunks n content content.length [] []
  if r.2 = [] then r.1.map List.reverse
  else r.2.reverse :: r.1.map List.reverse

/-- `tailFile` on a file with the given content: under 1 MiB the scanner
path, otherwise the backward chunked reader (whose pure model cannot
fail). -/
def tailFile (content : Str) (n : ℕ) : Except Str (List Str) :=
  if content.length < 1048576 then readAllLines content n
  else .ok (readLastNLines content n)

/-- `FetchLogLines`: gate the path, bound `lines` to `[1, 10000]`, then
tail the file. -/
def fetchLogLines (glob : GlobFn) (content : Str) (logPath : Str) (n : ℤ)
    (allowedPatterns : List Str) : Except Str (List Str) :=
  if ¬ isPathAllowed glob logPath allowedPatterns = true then
    .error (str "log path not in allowed list")
  else if n ≤ 0 then .error (str "lines must be greater than 0")
  else if 10000 < n then .error (str "lines cannot exceed 10000")
  else tailFile content n.toNat

/-- All carriage returns removed. -/
def stripCR (s : Str) : Str := s.filter (fun c => ¬ c = crChar)

/-- The last `n` entries of a list, in order. -/
def takeLast (n : ℕ) (l : List Str) : List Str := l.drop (l.length - n)

/-- What the backward reader extracts from the file: the newline-separated
segments with every carriage return removed and empty results dropped, in
file order. -/
def cleanLines (content : Str) : List Str :=
  ((splitOnChar nlChar content).map stripCR).filter (fun l => ! l.isEmpty)

theorem takeLast_of_length_le (n : ℕ) (l : List Str) (h : l.length ≤ n) :
    takeLast n l = l := by
  rw [takeLast, Nat.sub_eq_zero_of_le h, List.drop_zero]

theorem takeLast_zero (l : List Str) : takeLast 0 l = [] := by
  rw [takeLast, Nat.sub_zero, List.drop_length]

theorem takeLast_cons_of_le (n : ℕ) (x : Str) (l : List Str) (h : n ≤ l.length) :
    takeLast n (x :: l) = takeLast n l := by
  rw [takeLast, takeLast, List.length_cons,
    show l.length + 1 - n = (l.length - n) + 1 by omega, List.drop_succ_cons]

theorem takeLast_snoc (m : ℕ) (ys : List Str) (a : Str) (h : 1 ≤ m) :
    takeLast m (ys ++ [a]) = takeLast (m - 1) ys ++ [a] := by
  rw [takeLast, takeLast, List.length_append, List.length_singleton,
    List.drop_append_of_le_length (by omega),
    show ys.length + 1 - m = ys.length - (m - 1) by omega]

theorem takeLast_map_reverse (n : ℕ) (l : List Str) :
    (takeLast n l).map List.reverse = takeLast n (l.map List.reverse) := by
  rw [takeLast, takeLast, List.length_map, List.map_drop]

/-- Reference backward scanner: `procChunk` with a sticky break flag, so
that chunked processing composes into one pass over the whole reversed
content. -/
def scanB (n : ℕ) : Str → List Str → Str → Bool → List Str × Str × Bool
  | [], lines, cur, d => (lines, cur, d)
  | b :: rest, lines, cur, d =>
    if d then (lines, cur, d)
    else if b = nlChar then
      let p : List Str × Str := if cur = [] then (lines, cur) else (cur :: lines, [])
      if n ≤ p.1.length then scanB n rest p.1 p.2 true
      else scanB n rest p.1 p.2 false
    else if b = crChar then scanB n rest lines cur false
    else scanB n rest lines (cur ++ [b]) false

theorem scanB_sticky (n : ℕ) (bs : Str) (l : List Str) (c : Str) :
    scanB n bs l c true = (l, c, true) := by
  cases bs <;> simp [scanB]

theorem procChunk_eq_scanB (n : ℕ) (bs : Str) (l : List Str) (c : Str) :
    procChunk n bs l c = scanB n bs l c false := by
  induction bs generalizing l c with
  | nil => rfl
  | cons b rest ih =>
    simp only [procChunk, scanB, Bool.false_eq_true, if_false]
    split
    · split
      · split
        · exact (scanB_sticky n rest _ _).symm
        · exact ih _ _
      · split
        · exact (scanB_sticky n rest _ _).symm
        · exact ih _ _
    · split
      · exact ih _ _
      · exact ih _ _

theorem scanB_append (n : ℕ) (xs ys : Str) (l : List Str) (c : Str) (d : Bool) :
    scanB n (xs ++ ys) l c d =
      scanB n ys (scanB n xs l c d).1 (scanB n xs l c d).2.1 (scanB n xs l c d).2.2 := by
  induction xs generalizing l c d with
  | nil => rfl
  | cons b rest ih =>
    cases d with
    | true =>
      rw [List.cons_append, scanB_sticky, scanB_sticky]
      exact (scanB_sticky n ys l c).symm
    | false =>
      simp only [List.cons_append, scanB, Bool.false_eq_true, if_false]
      split
      · split
        · split
          · exact ih _ _ _
          · exact ih _ _ _
        · split
          · exact ih _ _ _
          · exact ih _ _ _
      · split
        · exact ih _ _ _
        · exact ih _ _ _

theorem scanB_bound (n : ℕ) (bs : Str) (l : List Str) (c : Str) (h : l.length < n) :
    ((scanB n bs l c false).2.2 = true → n ≤ (scanB n bs l c false).1.length) ∧
    ((scanB n bs l c false).2.2 = false → (scanB n bs l c false).1.length < n) := by
  induction bs generalizing l c with
  | nil =>
    refine ⟨fun hh => absurd hh (by simp [scanB]), fun _ => ?_⟩
    simpa [scanB] using h
  | cons b rest ih =>
    simp only [scanB, Bool.false_eq_true, if_false]
    split
    · split
      · split
        · rename_i hlen
          rw [scanB_sticky]
          exact ⟨fun _ => hlen, fun hh => absurd hh (by simp)⟩
        · exact ih _ _ h
      · split
        · rename_i hlen
          rw [scanB_sticky]
          exact ⟨fun _ => hlen, fun hh => absurd hh (by simp)⟩
        · rename_i hlen
          refine ih _ _ ?_
          simp only [List.length_cons] at hlen ⊢
          omega
    · split
      · exact ih _ _ h
      · exact ih _ _ h

theorem scanB_no_newline (n : ℕ) (bs : Str) (l : List Str) (c : Str)
    (h : nlChar ∉ bs) :
    scanB n bs l c false = (l, c ++ stripCR bs, false) := by
  induction bs generalizing c with
  | nil => simp [scanB, stripCR]
  | cons b rest ih =>
    have hb : ¬ b = nlChar := fun hh => h (by rw [hh]; exact List.mem_cons_self _ _)
    have hrest : nlChar ∉ rest := fun hh => h (List.mem_cons_of_mem _ hh)
    have hcn : ¬ crChar = nlChar := by decide
    by_cases hc : b = crChar
    · rw [show scanB n (b :: rest) l c false = scanB n rest l c false by
        simp [scanB, hb, hc, hcn], ih c hrest]
      simp [stripCR, List.filter_cons, hc]
    · rw [show scanB n (b :: rest) l c false = scanB n rest l (c ++ [b]) false by
        simp [scanB, hb, hc], ih (c ++ [b]) hrest]
      simp [stripCR, List.filter_cons, hc]

theorem joinWith_cons_cons (sep x y : Str) (ys : List Str) :
    joinWith sep (x :: y :: ys) = x ++ sep ++ joinWith sep (y :: ys) := rfl

theorem joinWith_snoc (sep : Str) (xs : List Str) (y : Str) (h : xs ≠ []) :
    joinWith sep (xs ++ [y]) = joinWith sep xs ++ sep ++ y := by
  induction xs with
  | nil => cases h rfl
  | cons x xs ih =>
    cases xs with
    | nil => rfl
    | cons z zs =>
      have h3 : joinWith sep ((x :: z :: zs) ++ [y])
          = x ++ sep ++ joinWith sep ((z :: zs) ++ [y]) := by
        cases hzz : (z :: zs) ++ [y] with
        | nil => simp at hzz
        | cons w ws =>
          rw [show (x :: z :: zs) ++ [y] = x :: ((z :: zs) ++ [y]) from rfl, hzz]
          exact joinWith_cons_cons sep x w ws
      rw [h3, ih (by simp), joinWith_cons_cons]
      simp [List.append_assoc]

theorem splitOnChar_ne_nil (sep : Char) (s : Str) : splitOnChar sep s ≠ [] := by
  induction s with
  | nil => simp [splitOnChar]
  | cons c rest ih =>
    simp only [splitOnChar]
    split
    · simp
    · cases hsp : splitOnChar sep rest with
      | nil => simp
      | cons a as => simp

theorem splitOnChar_no_sep (sep : Char) (s : Str) :
    ∀ seg ∈ splitOnChar sep s, sep ∉ seg := by
  induction s with
  | nil =>
    intro seg hseg
    simp only [splitOnChar, List.mem_singleton] at hseg
    simp [hseg]
  | cons c rest ih =>
    intro seg hseg
    simp only [splitOnChar] at hseg
    by_cases hc : c = sep
    · rw [if_pos hc] at hseg
      rcases List.mem_cons.mp hseg with h1 | h1
      · simp [h1]
      · exact ih seg h1
    · rw [if_neg hc] at hseg
      cases hsp : splitOnChar sep rest with
      | nil => exact absurd hsp (splitOnChar_ne_nil sep rest)
      | cons a as =>
        rw [hsp] at hseg
        rcases List.mem_cons.mp hseg with h1 | h1
        · subst h1
          intro hmem
          rcases List.mem_cons.mp hmem with h2 | h2
          · exact hc h2.symm
          · exact ih a (hsp ▸ List.mem_cons_self a as) h2
        · exact ih seg (hsp ▸ List.mem_cons_of_mem a h1)

theorem splitOnChar_cons_self (sep : Char) (rest : Str) :
    splitOnChar sep (sep :: rest) = [] :: splitOnChar sep rest := by
  simp [splitOnChar]

theorem splitOnChar_cons_of_ne (sep c : Char) (rest a : Str) (as : List Str)
    (hc : ¬ c = sep) (hsp : splitOnChar sep rest = a :: as) :
    splitOnChar sep (c :: rest) = (c :: a) :: as := by
  simp [splitOnChar, hc, hsp]

theorem joinWith_splitOnChar (sep : Char) (s : Str) :
    joinWith [sep] (splitOnChar sep s) = s := by
  induction s with
  | nil => rfl
  | cons c rest ih =>
    by_cases hc : c = sep
    · subst hc
      rw [splitOnChar_cons_self]
      cases hsp : splitOnChar c rest with
      | nil => exact absurd hsp (splitOnChar_ne_nil c rest)
      | cons a as =>
        rw [joinWith_cons_cons, ← hsp, ih]
        rfl
    · cases hsp : splitOnChar sep rest with
      | nil => exact absurd hsp (splitOnChar_ne_nil sep rest)
      | cons a as =>
        rw [splitOnChar_cons_of_ne sep c rest a as hc hsp]
        rw [hsp] at ih
        cases as with
        | nil =>
          show c :: a = c :: rest
          rw [show joinWith [sep] [a] = a from rfl] at ih
          rw [ih]
        | cons b bs =>
          rw [joinWith_cons_cons] at ih
          rw [joinWith_cons_cons]
          show c :: (a ++ [sep] ++ joinWith [sep] (b :: bs)) = c :: rest
          rw [ih]

theorem readChunks_eq_scanB (n : ℕ) (content : Str) (pos : ℕ) :
    ∀ l : List Str, ∀ c : Str, l.length < n →
    readChunks n content pos l c =
      ((scanB n ((content.take pos).reverse) l c false).1,
       (scanB n ((content.take pos).reverse) l c false).2.1) := by
  induction pos using Nat.strong_induction_on with
  | _ pos ih =>
    intro l c h
    by_cases hp : 0 < pos
    case neg =>
      have h0 : pos = 0 := by omega
      subst h0
      rw [readChunks, dif_neg (by omega)]
      rfl
    case pos =>
      rw [readChunks, dif_pos ⟨h, hp⟩]
      have hchunk : content.take pos
          = content.take (pos - min 4096 pos)
            ++ (content.take pos).drop (pos - min 4096 pos) := by
        conv_lhs => rw [← List.take_append_drop (pos - min 4096 pos) (content.take pos)]
        rw [List.take_take, min_eq_left (by omega)]
      have hrev : (content.take pos).reverse
          = ((content.take pos).drop (pos - min 4096 pos)).reverse
            ++ (content.take (pos - min 4096 pos)).reverse := by
        conv_lhs => rw [hchunk]
        rw [List.reverse_append]
      rw [procChunk_eq_scanB]
      have hA := scanB_bound n ((content.take pos).drop (pos - min 4096 pos)).reverse l c h
      cases hd : (scanB n ((content.take pos).drop (pos - min 4096 pos)).reverse
          l c false).2.2 with
      | true =>
        have hge := hA.1 hd
        rw [readChunks, dif_neg (fun hcon => by omega)]
        rw [hrev, scanB_append, hd, scanB_sticky]
      | false =>
        have hlt := hA.2 hd
        rw [ih (pos - min 4096 pos) (by omega) _ _ hlt]
        rw [hrev, scanB_append, hd]

/-- A segment's contribution to the backward scanner: carriage returns
removed, still reversed. -/
def revClean (s : Str) : Str := (stripCR s).reverse

/-- The lines the backward scanner flushes: the segments after the first,
cleaned, still reversed, empties dropped, oldest first. -/
def flushedR (segs : List Str) : List Str :=
  ((segs.drop 1).map revClean).filter (fun l => ! l.isEmpty)

theorem stripCR_reverse (s : Str) : stripCR s.reverse = (stripCR s).reverse := by
  rw [stripCR, stripCR, List.filter_reverse]

theorem isEmpty_reverse (l : Str) : l.reverse.isEmpty = l.isEmpty := by
  cases l with
  | nil => rfl
  | cons a as =>
    rw [List.reverse_cons]
    cases h2 : as.reverse ++ [a] with
    | nil => exact absurd h2 (by simp)
    | cons b bs => rfl

theorem isEmpty_eq_false_of_ne_nil (l : Str) (h : l ≠ []) : l.isEmpty = false := by
  cases hl : l with
  | nil => exact absurd hl h
  | cons a as => rfl

theorem revClean_map_reverse (xs : List Str) :
    ((xs.map revClean).filter (fun l => ! l.isEmpty)).map List.reverse
      = (xs.map stripCR).filter (fun l => ! l.isEmpty) := by
  induction xs with
  | nil => rfl
  | cons x xs ih =>
    simp only [List.map_cons, List.filter_cons]
    have hemp : (revClean x).isEmpty = (stripCR x).isEmpty := by
      rw [revClean, isEmpty_reverse]
    rw [hemp]
    cases hstrip : (stripCR x).isEmpty with
    | true => simpa using ih
    | false =>
      simp only [Bool.not_false, if_pos]
      rw [List.map_cons, ih, revClean, List.reverse_reverse]

theorem flushedR_snoc_nil (xs : List Str) (x : Str) (hx : revClean x = []) :
    flushedR (xs ++ [x]) = flushedR xs := by
  cases xs with
  | nil => rfl
  | cons y ys =>
    rw [flushedR, flushedR]
    show ((ys ++ [x]).map revClean).filter _ = (ys.map revClean).filter _
    rw [List.map_append, List.filter_append]
    simp [List.filter_cons, hx]

theorem flushedR_snoc_ne (y : Str) (ys : List Str) (x : Str)
    (hx : ¬ revClean x = []) :
    flushedR ((y :: ys) ++ [x]) = flushedR (y :: ys) ++ [revClean x] := by
  rw [flushedR, flushedR]
  show ((ys ++ [x]).map revClean).filter _ = (ys.map revClean).filter _ ++ _
  rw [List.map_append, List.filter_append]
  simp [List.filter_cons, isEmpty_eq_false_of_ne_nil _ hx]

theorem scanB_segments (n : ℕ) (segs : List Str) :
    ∀ L : List Str, segs ≠ [] → (∀ s ∈ segs, nlChar ∉ s) → L.length < n →
    scanB n (joinWith [nlChar] segs).reverse L [] false =
      (if n ≤ (flushedR segs).length + L.length then
        (takeLast (n - L.length) (flushedR segs) ++ L, [], true)
      else (flushedR segs ++ L, revClean segs.headI, false)) := by
  induction segs using List.reverseRecOn with
  | nil => intro L hne _ _; exact absurd rfl hne
  | append_singleton xs x ih =>
    intro L _ hnonl hL
    have hnlx : nlChar ∉ x.reverse := by
      rw [List.mem_reverse]
      exact fun hm => hnonl x (by simp) hm
    have hx : scanB n x.reverse L [] false = (L, revClean x, false) := by
      rw [scanB_no_newline n x.reverse L [] hnlx, revClean, stripCR_reverse,
        List.nil_append]
    cases xs with
    | nil =>
      rw [show joinWith [nlChar] ([] ++ [x]) = x from rfl, hx,
        show flushedR ([] ++ [x]) = [] from rfl]
      rw [if_neg (by simp; omega)]
      rfl
    | cons y ys =>
      have hxs : (y :: ys : List Str) ≠ [] := by simp
      have hnonl2 : ∀ s ∈ (y :: ys : List Str), nlChar ∉ s := fun s hs =>
        hnonl s (List.mem_append_left _ hs)
      have hJ : (joinWith [nlChar] ((y :: ys) ++ [x])).reverse
          = x.reverse ++ (nlChar :: (joinWith [nlChar] (y :: ys)).reverse) := by
        rw [joinWith_snoc _ _ _ hxs]
        simp [List.reverse_append]
      rw [hJ, scanB_append, hx]
      show scanB n (nlChar :: (joinWith [nlChar] (y :: ys)).reverse) L
        (revClean x) false = _
      by_cases hcx : revClean x = []
      · have hstep : scanB n (nlChar :: (joinWith [nlChar] (y :: ys)).reverse) L
            (revClean x) false
            = scanB n ((joinWith [nlChar] (y :: ys)).reverse) L [] false := by
          simp [scanB, hcx, Nat.not_le.mpr hL]
        rw [hstep, ih L hxs hnonl2 hL, flushedR_snoc_nil _ _ hcx]
        rfl
      · by_cases hcond : n ≤ L.length + 1
        · have hstep : scanB n (nlChar :: (joinWith [nlChar] (y :: ys)).reverse) L
              (revClean x) false = (revClean x :: L, [], true) := by
            simp [scanB, hcx, scanB_sticky, show n ≤ L.length + 1 from hcond]
          rw [hstep, flushedR_snoc_ne _ _ _ hcx]
          rw [if_pos (by simp [List.length_append]; omega)]
          have hn1 : n - L.length = 1 := by omega
          rw [hn1, takeLast_snoc _ _ _ (le_refl 1), takeLast_zero]
          rfl
        · have hstep : scanB n (nlChar :: (joinWith [nlChar] (y :: ys)).reverse) L
              (revClean x) false
              = scanB n ((joinWith [nlChar] (y :: ys)).reverse) (revClean x :: L)
                  [] false := by
            simp [scanB, hcx, show ¬ n ≤ L.length + 1 from hcond]
          rw [hstep, ih (revClean x :: L) hxs hnonl2 (by simp; omega),
            flushedR_snoc_ne _ _ _ hcx]
          by_cases hc2 : n ≤ (flushedR (y :: ys)).length + (L.length + 1)
          · rw [if_pos (by simp; omega), if_pos (by simp [List.length_append]; omega)]
            rw [takeLast_snoc _ _ _ (by omega : 1 ≤ n - L.length)]
            rw [show n - L.length - 1 = n - (revClean x :: L).length by
              simp [List.length_cons]; omega]
            simp [List.append_assoc]
          · rw [if_neg (by simp; omega), if_neg (by simp [List.length_append]; omega)]
            simp [List.append_assoc]

theorem readLastNLines_eq (content : Str) (n : ℕ) (hn : 1 ≤ n) :
    readLastNLines content n = takeLast n (cleanLines content) := by
  have hjoin := joinWith_splitOnChar nlChar content
  cases hsegs : splitOnChar nlChar content with
  | nil => exact absurd hsegs (splitOnChar_ne_nil nlChar content)
  | cons s0 rest =>
    rw [hsegs] at hjoin
    have hnonl2 : ∀ s ∈ (s0 :: rest : List Str), nlChar ∉ s := fun s hs =>
      splitOnChar_no_sep nlChar content s (hsegs ▸ hs)
    have hscan := scanB_segments n (s0 :: rest) [] (by simp) hnonl2 (by simpa using hn)
    rw [hjoin] at hscan
    simp only [List.length_nil, Nat.add_zero, Nat.sub_zero, List.append_nil] at hscan
    have hXF : (flushedR (s0 :: rest)).map List.reverse
        = (rest.map stripCR).filter (fun l => ! l.isEmpty) := by
      rw [flushedR]
      show ((rest.map revClean).filter _).map _ = _
      exact revClean_map_reverse rest
    have hXlen : ((rest.map stripCR).filter (fun l => ! l.isEmpty)).length
        = (flushedR (s0 :: rest)).length := by
      rw [← hXF, List.length_map]
    have hclean : cleanLines content
        = (if (stripCR s0).isEmpty
           then (rest.map stripCR).filter (fun l => ! l.isEmpty)
           else stripCR s0 :: (rest.map stripCR).filter (fun l => ! l.isEmpty)) := by
      rw [cleanLines, hsegs, List.map_cons, List.filter_cons]
      cases hs0 : (stripCR s0).isEmpty with
      | true => simp [hs0]
      | false => simp [hs0]
    simp only [readLastNLines]
    rw [readChunks_eq_scanB n content content.length [] []
        (by simp only [List.length_nil]; omega),
      List.take_length, hscan]
    by_cases hF : n ≤ (flushedR (s0 :: rest)).length
    · rw [if_pos hF]
      show (takeLast n (flushedR (s0 :: rest))).map List.reverse
        = takeLast n (cleanLines content)
      rw [takeLast_map_reverse, hXF, hclean]
      cases hs0 : (stripCR s0).isEmpty with
      | true => rw [if_pos rfl]
      | false =>
        rw [if_neg (by simp)]
        rw [takeLast_cons_of_le _ _ _ (by rw [hXlen]; omega)]
    · rw [if_neg hF]
      show (if revClean s0 = []
            then (flushedR (s0 :: rest)).map List.reverse
            else (revClean s0).reverse :: (flushedR (s0 :: rest)).map List.reverse)
          = takeLast n (cleanLines content)
      by_cases hrc : revClean s0 = []
      · rw [if_pos hrc]
        have hs0 : stripCR s0 = [] := by
          rw [revClean] at hrc
          exact List.reverse_eq_nil_iff.mp hrc
        rw [hXF, hclean, if_pos (by rw [hs0]; rfl),
          takeLast_of_length_le _ _ (by rw [hXlen]; omega)]
      · rw [if_neg hrc]
        have hs0 : (stripCR s0).isEmpty = false :=
          isEmpty_eq_false_of_ne_nil _ (fun hh => hrc (by rw [revClean, hh]; rfl))
        rw [hXF, revClean, List.reverse_reverse, hclean, if_neg (by simp [hs0])]
        rw [takeLast_of_length_le _ _ (by simp only [List.length_cons]; omega)]

theorem readAllLines_eq (content : Str) (n : ℕ)
    (hseg : ∀ s ∈ splitOnChar nlChar content, s.length < maxScanTokenSize) :
    readAllLines content n = .ok (takeLast n (scanLines content)) := by
  simp only [readAllLines]
  rw [if_neg (fun hcon => by
    simp only [List.any_eq_true, decide_eq_true_eq] at hcon
    obtain ⟨s, hs, hss⟩ := hcon
    exact absurd (hseg s hs) (by omega))]
  by_cases h : (scanLines content).length ≤ n
  · rw [if_pos h, takeLast_of_length_le _ _ h]
  · rw [if_neg h]
    rfl

/-- C3 counterexample: on the allowed small file with content `a\x0db\x0a`
and `n = 1`, `FetchLogLines` returns the line `a\x0db` with its interior
carriage return intact — the scanner only strips a line-terminating
carriage return — so the reply is not the final line with carriage-return
characters stripped (which would be `ab`). -/
theorem C3_counterexample :
    fetchLogLines globC2 (str "a\rb\n") (str "/var/log/app.log") 1
        [str "/var/log/app.log"] = .ok [str "a\rb"] ∧
    crChar ∈ str "a\rb" ∧
    stripCR (str "a\rb") ≠ str "a\rb" := by
  refine ⟨by rfl, by decide, by decide⟩

example : readLastNLines (str "aa\r\n\nbb\ncc") 10 = [str "aa", str "bb", str "cc"] := by
  rw [readLastNLines_eq _ _ (by omega)]
  decide

example : readLastNLines (str "x\ry\nz\n") 1 = [str "z"] := by
  rw [readLastNLines_eq _ _ (by omega)]
  decide

/-- C3 (amended): for every allowed path and every `n` in `[1, 10000]`,
`FetchLogLines` succeeds and preserves file order, but the two size regimes
return different lines: a file under 1 MiB (whose segments stay below the
scanner's 64 KiB token limit) yields the last `n` scanner tokens — only a
line-terminating carriage return is stripped and empty lines are kept —
while a file of 1 MiB or more yields the last `n` of the newline-separated
segments with every carriage return removed and emptied lines dropped. -/
theorem C3_tail_lines (glob : GlobFn) (content logPath : Str) (n : ℤ)
    (pats : List Str)
    (hallow : isPathAllowed glob logPath pats = true)
    (h1 : 1 ≤ n) (h2 : n ≤ 10000)
    (hseg : content.length < 1048576 →
      ∀ s ∈ splitOnChar nlChar content, s.length < maxScanTokenSize) :
    fetchLogLines glob content logPath n pats =
      .ok (if content.length < 1048576
           then takeLast n.toNat (scanLines content)
           else takeLast n.toNat (cleanLines content)) := by
  rw [fetchLogLines, if_neg (not_not_intro hallow), if_neg (by omega),
    if_neg (by omega), tailFile]
  by_cases hs : content.length < 1048576
  · rw [if_pos hs, if_pos hs]
    exact readAllLines_eq content n.toNat (hseg hs)
  · rw [if_neg hs, if_neg hs, readLastNLines_eq content n.toNat (by omega)]

/-- Witness for `C3_tail_lines` on the allowed path with the small content
`a\x0db\x0ac\x0a\x0ad` and `n = 2`. -/
theorem C3_tail_lines_witness :
    isPathAllowed globC2 (str "/var/log/app.log") [str "/var/log/app.log"] = true ∧
    (1 : ℤ) ≤ 2 ∧ (2 : ℤ) ≤ 10000 ∧
    ((str "a\rb\nc\n\nd").length < 1048576 →
      ∀ s ∈ splitOnChar nlChar (str "a\rb\nc\n\nd"), s.length < maxScanTokenSize) ∧
    fetchLogLines globC2 (str "a\rb\nc\n\nd") (str "/var/log/app.log") 2
        [str "/var/log/app.log"]
      = .ok (if (str "a\rb\nc\n\nd").length < 1048576
             then takeLast (2 : ℤ).toNat (scanLines (str "a\rb\nc\n\nd"))
             else takeLast (2 : ℤ).toNat (cleanLines (str "a\rb\nc\n\nd"))) :=
  ⟨by decide, by decide, by decide, by decide,
   C3_tail_lines globC2 (str "a\rb\nc\n\nd") (str "/var/log/app.log") 2
     [str "/var/log/app.log"] (by decide) (by decide) (by decide) (by decide)⟩

end Agent
